import Mathlib

/-!
Verification development for the orchestration core of this repository
(`dagster/_core/execution/api.py`, `dagster/_core/execution/asset_backfill.py`,
`dagster/_core/definitions/job_definition.py`).  Python code is shallowly
embedded: pure control flow becomes Lean functions, the surrounding services
(instance storage, executors, asset graphs) become explicit data passed in as
arguments, and raised exceptions become explicit error values.
-/

namespace DagsterSpec

/-! ## Run statuses.

Modelled from the spec (section 4.5 state machine); `storage/pipeline_run.py`
is not under `src/`.  Terminal ("finished") states are SUCCESS, FAILURE,
CANCELED. -/

inductive DagsterRunStatus where
  | NOT_STARTED
  | STARTING
  | STARTED
  | SUCCESS
  | FAILURE
  | CANCELED
  | CANCELING
deriving DecidableEq, Repr

/-- Modelled from the spec: terminal states of the run state machine
(`DagsterRun.is_finished`; `storage/pipeline_run.py` is not under `src/`). -/
def DagsterRunStatus.is_finished : DagsterRunStatus → Bool
  | .SUCCESS => true
  | .FAILURE => true
  | .CANCELED => true
  | _ => false

/-! ## `pipeline_execution_iterator` (api.py lines 789-887).

The executor's event stream (`pipeline_context.executor.execute(...)`) is
embedded as the list of events the iteration yielded before the stream ended,
together with how it ended: normal exhaustion, a KeyboardInterrupt /
DagsterExecutionInterruptedError, any other BaseException, or GeneratorExit
(the consumer closed the generator early).  `raise_on_error` only re-raises
after the `finally` block has yielded, so it does not change the yielded
event list and is not a parameter of the model. -/

structure ExecutorEvent where
  is_step_failure : Bool
  is_resource_init_failure : Bool
  step_key : Option String
deriving DecidableEq, Repr

inductive StreamEnd where
  | normal
  | interrupted
  | exception
  | closed
deriving DecidableEq, Repr

structure OrchestrationInput where
  resume_from_failure : Bool
  events : List ExecutorEvent
  stream_end : StreamEnd
  /-- status of `instance.get_run_by_id(run_id)` reloaded in the `finally`
  block (`none` when the run cannot be found). -/
  reloaded_status : Option DagsterRunStatus
  /-- `pipeline_context.instance.run_will_resume(run_id)`. -/
  run_will_resume : Bool
deriving DecidableEq, Repr

/-- Python truthiness of an `Optional[str]`: `None` and `""` are falsy. -/
def strOptTruthy : Option String → Bool
  | none => false
  | some s => s ≠ ""

/-- The `failed_steps` accumulator: `if event.is_step_failure:
failed_steps.append(event.step_key)` / `elif event.is_resource_init_failure
and event.step_key: failed_steps.append(event.step_key)`. -/
def failedStepsAccum (events : List ExecutorEvent) : List (Option String) :=
  events.foldl
    (fun acc e =>
      if e.is_step_failure then acc ++ [e.step_key]
      else if e.is_resource_init_failure && strOptTruthy e.step_key then acc ++ [e.step_key]
      else acc)
    []

/-- The three `DagsterEvent.pipeline_failure` call sites in
`pipeline_execution_iterator`, distinguished by their message/payload. -/
inductive FailureReason where
  | exception_thrown
  | interrupted_no_termination_request
  | steps_failed (failed_steps : List (Option String))
deriving DecidableEq, Repr

inductive DagsterEvent where
  | pipeline_start
  | executor_event (e : ExecutorEvent)
  | pipeline_canceled
  | pipeline_failure (reason : FailureReason)
  | pipeline_success
  | engine_event (msg : String)
deriving DecidableEq, Repr

def DagsterEvent.isTerminal : DagsterEvent → Bool
  | .pipeline_success => true
  | .pipeline_failure _ => true
  | .pipeline_canceled => true
  | _ => false

/-- The event computed in the `finally` block of
`pipeline_execution_iterator` (yielded only when the generator was not
closed). -/
def finalEvent (i : OrchestrationInput) : DagsterEvent :=
  match i.stream_end with
  | .interrupted =>
      if i.reloaded_status = some .CANCELING then
        DagsterEvent.pipeline_canceled
      else if i.reloaded_status = some .CANCELED then
        DagsterEvent.engine_event
          "Computational resources were cleaned up after the run was forcibly marked as canceled."
      else if i.run_will_resume then
        DagsterEvent.engine_event
          "Execution was interrupted unexpectedly. No user initiated termination request was found, not treating as failure because run will be resumed."
      else if i.reloaded_status = some .FAILURE then
        DagsterEvent.engine_event
          "Execution was interrupted for a run that was already in a failure state."
      else
        DagsterEvent.pipeline_failure .interrupted_no_termination_request
  | .exception => DagsterEvent.pipeline_failure .exception_thrown
  | .closed => DagsterEvent.pipeline_failure .exception_thrown
  | .normal =>
      if failedStepsAccum i.events = [] then DagsterEvent.pipeline_success
      else DagsterEvent.pipeline_failure (.steps_failed (failedStepsAccum i.events))

/-- `pipeline_execution_iterator` as the full list of events it yields to a
consumer: the optional `pipeline_start` (skipped when
`resume_from_failure`), the executor's events passed through, then the
`finally`-block event unless the generator was closed
(`if not generator_closed: yield event`). -/
def pipeline_execution_iterator (i : OrchestrationInput) : List DagsterEvent :=
  (if i.resume_from_failure then [] else [DagsterEvent.pipeline_start])
    ++ i.events.map DagsterEvent.executor_event
    ++ (if i.stream_end = StreamEnd.closed then [] else [finalEvent i])

lemma countP_isTerminal_map_executor (evs : List ExecutorEvent) :
    (evs.map DagsterEvent.executor_event).countP (DagsterEvent.isTerminal ·) = 0 := by
  induction evs with
  | nil => rfl
  | cons e t ih => simp [List.countP_cons, DagsterEvent.isTerminal, ih]

lemma finalEvent_ne_start (i : OrchestrationInput) :
    finalEvent i ≠ DagsterEvent.pipeline_start := by
  rcases i with ⟨resume, evs, se, rs, wr⟩
  rcases se
  case normal =>
    by_cases hfs : failedStepsAccum evs = [] <;> simp [finalEvent, hfs]
  case interrupted =>
    simp only [finalEvent]
    split
    · simp
    · split
      · simp
      · split
        · simp
        · split <;> simp
  case exception => simp [finalEvent]
  case closed => simp [finalEvent]

lemma countP_isTerminal_pipeline_execution_iterator (i : OrchestrationInput) :
    (pipeline_execution_iterator i).countP (DagsterEvent.isTerminal ·) =
      if i.stream_end = StreamEnd.closed then 0
      else if DagsterEvent.isTerminal (finalEvent i) then 1 else 0 := by
  unfold pipeline_execution_iterator
  rw [List.countP_append, List.countP_append, countP_isTerminal_map_executor]
  have h1 : (if i.resume_from_failure then ([] : List DagsterEvent)
      else [DagsterEvent.pipeline_start]).countP (DagsterEvent.isTerminal ·) = 0 := by
    by_cases hr : i.resume_from_failure <;>
      simp [hr, List.countP_cons, DagsterEvent.isTerminal]
  rw [h1]
  by_cases hclosed : i.stream_end = StreamEnd.closed
  · simp [hclosed]
  · simp [hclosed, List.countP_cons]

/-- C1: when the executor event stream is fully consumed without an exception
(`stream_end = normal`), the run's final event is the terminal run-failure
event naming the accumulated `failed_steps` exactly when that accumulator is
non-empty, and the run-success event otherwise; the outcome is a function of
the accumulator alone. -/
theorem run_outcome_determined_by_failed_steps (i : OrchestrationInput)
    (h : i.stream_end = StreamEnd.normal) :
    ((pipeline_execution_iterator i).getLast? =
        some (DagsterEvent.pipeline_failure
          (FailureReason.steps_failed (failedStepsAccum i.events)))
      ↔ failedStepsAccum i.events ≠ []) ∧
    (failedStepsAccum i.events = [] →
      (pipeline_execution_iterator i).getLast? = some DagsterEvent.pipeline_success) := by
  have hne : i.stream_end ≠ StreamEnd.closed := by rw [h]; intro hc; cases hc
  have hlast : (pipeline_execution_iterator i).getLast? = some (finalEvent i) := by
    unfold pipeline_execution_iterator
    rw [if_neg hne, List.getLast?_concat]
  rw [hlast]
  unfold finalEvent
  rw [h]
  by_cases hfs : failedStepsAccum i.events = [] <;> simp [hfs]

/-- C1 witness: a concrete run whose executor stream ends normally after one
step-failure event; the terminal event is a run failure naming that step. -/
theorem run_outcome_determined_by_failed_steps_witness :
    ((pipeline_execution_iterator
        (OrchestrationInput.mk false
          [ExecutorEvent.mk true false (some "step_2")] StreamEnd.normal none false)).getLast? =
        some (DagsterEvent.pipeline_failure
          (FailureReason.steps_failed
            (failedStepsAccum [ExecutorEvent.mk true false (some "step_2")])))
      ↔ failedStepsAccum [ExecutorEvent.mk true false (some "step_2")] ≠ []) ∧
    (failedStepsAccum [ExecutorEvent.mk true false (some "step_2")] = [] →
      (pipeline_execution_iterator
        (OrchestrationInput.mk false
          [ExecutorEvent.mk true false (some "step_2")] StreamEnd.normal none false)).getLast? =
        some DagsterEvent.pipeline_success) :=
  run_outcome_determined_by_failed_steps
    (OrchestrationInput.mk false [ExecutorEvent.mk true false (some "step_2")]
      StreamEnd.normal none false) rfl

/-- C2 counterexample: the claim asserts exactly one terminal event per run
"including when the iteration is interrupted"; but when the iteration is
interrupted and the reloaded run status is CANCELED (force-terminated), the
`finally` block emits an engine event, not a terminal event — the stream
contains zero terminal events. -/
theorem run_terminal_event_absent_on_forced_cancel :
    ¬ ((pipeline_execution_iterator
        (OrchestrationInput.mk false [] StreamEnd.interrupted
          (some DagsterRunStatus.CANCELED) false)).countP
        (DagsterEvent.isTerminal ·) = 1) := by decide

/-- C2 (amended): the run-start event is the head of the stream exactly when
not resuming from failure; at most one terminal event is ever emitted, and
only in the last position (so all step events precede it); exactly one
terminal event is emitted iff the stream ended normally or with a
non-interrupt exception, or was interrupted and the persisted run status
disambiguates to "canceling" or to a genuine crash (not force-canceled, not
resuming elsewhere, not already failed).  On interruption in the remaining
cases a non-terminal engine event is emitted instead, and on generator close
no final event is emitted at all. -/
theorem run_event_stream_ordering (i : OrchestrationInput) :
    ((pipeline_execution_iterator i).head? = some DagsterEvent.pipeline_start
        ↔ i.resume_from_failure = false) ∧
    (pipeline_execution_iterator i).countP (DagsterEvent.isTerminal ·) ≤ 1 ∧
    ((pipeline_execution_iterator i).dropLast.all (fun e => !(DagsterEvent.isTerminal e)) = true) ∧
    ((pipeline_execution_iterator i).countP (DagsterEvent.isTerminal ·) = 1 ↔
      (i.stream_end = StreamEnd.normal ∨ i.stream_end = StreamEnd.exception ∨
        (i.stream_end = StreamEnd.interrupted ∧
          (i.reloaded_status = some DagsterRunStatus.CANCELING ∨
            (i.reloaded_status ≠ some DagsterRunStatus.CANCELED ∧
              i.run_will_resume = false ∧
              i.reloaded_status ≠ some DagsterRunStatus.FAILURE))))) := by
  obtain ⟨resume, evs, se, rs, wr⟩ := i
  refine ⟨?_, ?_, ?_, ?_⟩
  · rcases resume
    case false => simp [pipeline_execution_iterator]
    case true =>
      rcases evs with _ | ⟨e, t⟩
      · by_cases hcl : se = StreamEnd.closed
        · simp [pipeline_execution_iterator, hcl]
        · simpa [pipeline_execution_iterator, hcl] using
            finalEvent_ne_start (OrchestrationInput.mk true [] se rs wr)
      · simp [pipeline_execution_iterator]
  · rw [countP_isTerminal_pipeline_execution_iterator]
    split
    · simp
    · split <;> simp
  · have hpre :
        ∀ e ∈ (if resume then ([] : List DagsterEvent)
            else [DagsterEvent.pipeline_start]) ++ evs.map DagsterEvent.executor_event,
          (!(DagsterEvent.isTerminal e)) = true := by
      intro e he
      rcases List.mem_append.mp he with hl | hr
      · split at hl
        · cases hl
        · cases hl with
          | head => rfl
          | tail _ h0 => cases h0
      · obtain ⟨a, _, rfl⟩ := List.mem_map.mp hr
        rfl
    by_cases hclosed : se = StreamEnd.closed
    · show ((if resume then ([] : List DagsterEvent) else [DagsterEvent.pipeline_start])
          ++ evs.map DagsterEvent.executor_event
          ++ (if se = StreamEnd.closed then [] else [finalEvent _])).dropLast.all _ = true
      rw [if_pos hclosed, List.append_nil, List.all_eq_true]
      intro e he
      exact hpre e (List.dropLast_subset _ he)
    · show ((if resume then ([] : List DagsterEvent) else [DagsterEvent.pipeline_start])
          ++ evs.map DagsterEvent.executor_event
          ++ (if se = StreamEnd.closed then []
              else [finalEvent (OrchestrationInput.mk resume evs se rs wr)])).dropLast.all
          (fun e => !(DagsterEvent.isTerminal e)) = true
      rw [if_neg hclosed, List.dropLast_concat, List.all_eq_true]
      exact hpre
  · rw [countP_isTerminal_pipeline_execution_iterator]
    rcases se
    case normal =>
      by_cases hfs : failedStepsAccum evs = [] <;>
        simp [finalEvent, hfs, DagsterEvent.isTerminal]
    case interrupted =>
      by_cases h1 : rs = some DagsterRunStatus.CANCELING <;>
        by_cases h2 : rs = some DagsterRunStatus.CANCELED <;>
        by_cases h3 : wr = true <;>
        by_cases h4 : rs = some DagsterRunStatus.FAILURE <;>
        simp_all [finalEvent, DagsterEvent.isTerminal]
    case exception => simp [finalEvent, DagsterEvent.isTerminal]
    case closed => simp

/-! ## `execute_run_iterator` (api.py lines 73-187).

The function first dispatches on the run's persisted status before any
execution machinery is touched; each early return is a tiny generator
yielding engine events.  The model captures that dispatch; the
`full_execution` outcome stands for falling through to
`_get_execution_plan_from_run` + `ExecuteRunWithPlanIterable`. -/

structure RunIteratorInput where
  status : DagsterRunStatus
  resume_from_failure : Bool
  run_monitoring_enabled : Bool
deriving DecidableEq, Repr

inductive RunIteratorOutcome where
  /-- a generator yielding exactly one engine event; nothing else happens -/
  | engine_event_only (msg : String)
  /-- a generator yielding an engine event and then reporting run failure -/
  | fail_restarted_run_worker
  /-- `check.invariant` raises to the caller (resumption from a bad state) -/
  | invariant_violation
  /-- falls through: builds the execution plan and runs the full iterator -/
  | full_execution
deriving DecidableEq, Repr

/-- Does the outcome reach `_get_execution_plan_from_run`? -/
def RunIteratorOutcome.builds_execution_plan : RunIteratorOutcome → Bool
  | .full_execution => true
  | _ => false

/-- Does the outcome raise instead of returning an iterator? -/
def RunIteratorOutcome.raises : RunIteratorOutcome → Bool
  | .invariant_violation => true
  | _ => false

def execute_run_iterator (i : RunIteratorInput) : RunIteratorOutcome :=
  if i.status = DagsterRunStatus.CANCELED then
    RunIteratorOutcome.engine_event_only
      "Not starting execution since the run was canceled before execution could start"
  else if !i.resume_from_failure then
    if i.status ≠ DagsterRunStatus.NOT_STARTED ∧ i.status ≠ DagsterRunStatus.STARTING then
      if i.status.is_finished then
        RunIteratorOutcome.engine_event_only
          "Ignoring a run worker that started after the run had already finished."
      else if i.run_monitoring_enabled then
        RunIteratorOutcome.engine_event_only
          "Ignoring a duplicate run that was started from somewhere other than the run monitor daemon"
      else
        RunIteratorOutcome.fail_restarted_run_worker
    else
      RunIteratorOutcome.full_execution
  else
    if i.status = DagsterRunStatus.STARTED ∨ i.status = DagsterRunStatus.STARTING then
      RunIteratorOutcome.full_execution
    else
      RunIteratorOutcome.invariant_violation

/-- C10: when the run's status is CANCELED at call time, `execute_run_iterator`
returns the one-engine-event generator ("Not starting execution since the run
was canceled before execution could start"); it never reaches plan building
(so no run-start, step, or terminal events are produced) and never raises. -/
theorem canceled_run_yields_single_engine_event (i : RunIteratorInput)
    (h : i.status = DagsterRunStatus.CANCELED) :
    execute_run_iterator i =
      RunIteratorOutcome.engine_event_only
        "Not starting execution since the run was canceled before execution could start" ∧
    (execute_run_iterator i).builds_execution_plan = false ∧
    (execute_run_iterator i).raises = false := by
  unfold execute_run_iterator
  rw [h]
  exact ⟨rfl, rfl, rfl⟩

/-- C10 witness: a concrete canceled run (even one marked
`resume_from_failure`) short-circuits to the single engine event. -/
theorem canceled_run_yields_single_engine_event_witness :
    execute_run_iterator (RunIteratorInput.mk DagsterRunStatus.CANCELED true false) =
      RunIteratorOutcome.engine_event_only
        "Not starting execution since the run was canceled before execution could start" ∧
    (execute_run_iterator
        (RunIteratorInput.mk DagsterRunStatus.CANCELED true false)).builds_execution_plan
      = false ∧
    (execute_run_iterator
        (RunIteratorInput.mk DagsterRunStatus.CANCELED true false)).raises = false :=
  canceled_run_yields_single_engine_event
    (RunIteratorInput.mk DagsterRunStatus.CANCELED true false) rfl

/-! ## `_get_execution_plan_from_run` (api.py lines 705-740).

The instance's snapshot store is a lookup function; the two branches of the
source become the two constructors of `PlanSource`: rebuilding from the
cached execution-plan snapshot versus recomputing a full plan with
`create_execution_plan` (which receives the snapshot's repository load data
and known state when a snapshot exists). -/

structure ExecutionPlanSnapshot where
  can_reconstruct_plan : Bool
  repository_load_data : Option Nat
  initial_known_state : Option Nat
deriving DecidableEq, Repr

structure PipelineTarget where
  solids_to_execute : Option (Finset String)
  asset_selection : Option (Finset String)
deriving DecidableEq

structure RunRecord where
  execution_plan_snapshot_id : Option String
  solids_to_execute : Option (Finset String)
  asset_selection : Option (Finset String)
deriving DecidableEq

structure PlanSnapshotStore where
  get_execution_plan_snapshot : String → Option ExecutionPlanSnapshot

inductive PlanSource where
  | rebuilt_from_snapshot
  | fresh (repository_load_data : Option Nat) (initial_known_state : Option Nat)
deriving DecidableEq, Repr

def get_execution_plan_from_run (pipeline : PipelineTarget) (dagster_run : RunRecord)
    (store : PlanSnapshotStore) : PlanSource :=
  let execution_plan_snapshot :=
    match dagster_run.execution_plan_snapshot_id with
    | some sid => store.get_execution_plan_snapshot sid
    | none => none
  match execution_plan_snapshot with
  | some snap =>
      if snap.can_reconstruct_plan
          ∧ pipeline.solids_to_execute = dagster_run.solids_to_execute
          ∧ pipeline.asset_selection = dagster_run.asset_selection then
        PlanSource.rebuilt_from_snapshot
      else
        PlanSource.fresh snap.repository_load_data snap.initial_known_state
  | none => PlanSource.fresh none none

/-- C8: the plan is rebuilt from the cached execution-plan snapshot iff a
snapshot exists (the run carries a snapshot id and the store resolves it),
it is marked reconstructable, and both the pipeline's `solids_to_execute`
and `asset_selection` equal those recorded on the run; in every other case
a full plan is recomputed (the `fresh` constructor, i.e.
`create_execution_plan`). -/
theorem plan_rebuilt_from_snapshot_iff (pipeline : PipelineTarget) (dagster_run : RunRecord)
    (store : PlanSnapshotStore) :
    (get_execution_plan_from_run pipeline dagster_run store = PlanSource.rebuilt_from_snapshot ↔
      ∃ sid snap, dagster_run.execution_plan_snapshot_id = some sid ∧
        store.get_execution_plan_snapshot sid = some snap ∧
        snap.can_reconstruct_plan = true ∧
        pipeline.solids_to_execute = dagster_run.solids_to_execute ∧
        pipeline.asset_selection = dagster_run.asset_selection) ∧
    ((¬ ∃ sid snap, dagster_run.execution_plan_snapshot_id = some sid ∧
        store.get_execution_plan_snapshot sid = some snap ∧
        snap.can_reconstruct_plan = true ∧
        pipeline.solids_to_execute = dagster_run.solids_to_execute ∧
        pipeline.asset_selection = dagster_run.asset_selection) →
      ∃ rld ks, get_execution_plan_from_run pipeline dagster_run store = PlanSource.fresh rld ks) := by
  have hmain :
      get_execution_plan_from_run pipeline dagster_run store = PlanSource.rebuilt_from_snapshot ↔
        ∃ sid snap, dagster_run.execution_plan_snapshot_id = some sid ∧
          store.get_execution_plan_snapshot sid = some snap ∧
          snap.can_reconstruct_plan = true ∧
          pipeline.solids_to_execute = dagster_run.solids_to_execute ∧
          pipeline.asset_selection = dagster_run.asset_selection := by
    unfold get_execution_plan_from_run
    rcases hsid : dagster_run.execution_plan_snapshot_id with _ | sid
    · simp [hsid]
    · rcases hsnap : store.get_execution_plan_snapshot sid with _ | snap
      · simp [hsnap]
      · simp only [hsid, hsnap]
        split
        · next hc =>
          exact iff_of_true rfl ⟨sid, snap, rfl, hsnap, hc.1, hc.2.1, hc.2.2⟩
        · next hc =>
          refine iff_of_false (fun h0 => by cases h0) ?_
          rintro ⟨sid', snap', hsid', hsnap', h1, h2, h3⟩
          injection hsid' with he
          subst he
          rw [hsnap] at hsnap'
          injection hsnap' with he2
          subst he2
          exact hc ⟨h1, h2, h3⟩
  refine ⟨hmain, fun hno => ?_⟩
  rcases hres : get_execution_plan_from_run pipeline dagster_run store with _ | ⟨rld, ks⟩
  · exact absurd (hmain.mp hres) hno
  · exact ⟨rld, ks, rfl⟩

/-! ## Asset graph subsets (asset_backfill.py).

Modelled from the spec: `asset_graph_subset.py` is not under `src/`.  The
spec (section 3) describes an `AssetGraphSubset` as tracking a set of
(asset, partition) pairs plus non-partitioned asset keys; we represent it
as exactly that, flattening the per-asset partition subsets into one finite
set of pairs.  Its storage form (section 6) is modelled as a canonically
ordered listing of the members. -/

structure AssetKeyPartitionKey where
  asset_key : String
  partition_key : Option String
deriving DecidableEq, Repr

structure AssetGraphSubset where
  partitions : Finset (String × String)
  non_partitioned_asset_keys : Finset String
deriving DecidableEq

def AssetGraphSubset.empty : AssetGraphSubset := AssetGraphSubset.mk ∅ ∅

def AssetGraphSubset.union (a b : AssetGraphSubset) : AssetGraphSubset :=
  AssetGraphSubset.mk (a.partitions ∪ b.partitions)
    (a.non_partitioned_asset_keys ∪ b.non_partitioned_asset_keys)

/-- `num_partitions_and_non_partitioned_assets`: partitions are counted
per-partition across all partitioned assets, plus one per non-partitioned
asset key. -/
def AssetGraphSubset.num_partitions_and_non_partitioned_assets (s : AssetGraphSubset) : Nat :=
  s.partitions.card + s.non_partitioned_asset_keys.card

/-- `asset_partition in subset`. -/
def AssetGraphSubset.contains (s : AssetGraphSubset) (x : AssetKeyPartitionKey) : Bool :=
  match x.partition_key with
  | some p => (x.asset_key, p) ∈ s.partitions
  | none => x.asset_key ∈ s.non_partitioned_asset_keys

/-- `subset | iterable_of_asset_partitions`. -/
def AssetGraphSubset.with_asset_partitions (s : AssetGraphSubset)
    (xs : List AssetKeyPartitionKey) : AssetGraphSubset :=
  xs.foldl
    (fun acc x =>
      match x.partition_key with
      | some p => AssetGraphSubset.mk (insert (x.asset_key, p) acc.partitions)
          acc.non_partitioned_asset_keys
      | none => AssetGraphSubset.mk acc.partitions
          (insert x.asset_key acc.non_partitioned_asset_keys))
    s

def AssetGraphSubset.subset_of (a b : AssetGraphSubset) : Bool :=
  a.partitions ⊆ b.partitions && a.non_partitioned_asset_keys ⊆ b.non_partitioned_asset_keys

def AssetGraphSubset.asset_keys (s : AssetGraphSubset) : Finset String :=
  s.partitions.image Prod.fst ∪ s.non_partitioned_asset_keys

/-! ### Canonical storage order for serialized subsets. -/

/-- Strict lexicographic character order on strings (kernel-computable,
unlike the iterator-based core order). -/
def strLt (a b : String) : Prop := List.Lex (· < ·) a.data b.data

instance : DecidableRel strLt := fun a b => by
  unfold strLt; infer_instance

lemma strData_inj {a b : String} (h : a.data = b.data) : a = b := by
  cases a
  cases b
  exact congrArg String.mk h

lemma strLt_trans {a b c : String} (h1 : strLt a b) (h2 : strLt b c) : strLt a c :=
  (inferInstance : IsTrans (List Char) (List.Lex (· < ·))).trans a.data b.data c.data h1 h2

lemma strLt_asymm {a b : String} (h1 : strLt a b) (h2 : strLt b a) : False :=
  (inferInstance : IsAsymm (List Char) (List.Lex (· < ·))).asymm a.data b.data h1 h2

lemma strLt_trichotomy (a b : String) : strLt a b ∨ a = b ∨ strLt b a := by
  rcases (inferInstance : IsTrichotomous (List Char) (List.Lex (· < ·))).trichotomous a.data b.data with h | h | h
  · exact Or.inl h
  · exact Or.inr (Or.inl (strData_inj h))
  · exact Or.inr (Or.inr h)

/-- Non-strict version of `strLt`. -/
def strLe (a b : String) : Prop := strLt a b ∨ a = b

instance : DecidableRel strLe := fun a b => by
  unfold strLe; infer_instance

instance : IsTrans String strLe := by
  constructor
  intro a b c hab hbc
  rcases hab with h1 | rfl
  · rcases hbc with h2 | rfl
    · exact Or.inl (strLt_trans h1 h2)
    · exact Or.inl h1
  · exact hbc

instance : IsAntisymm String strLe := by
  constructor
  intro a b hab hba
  rcases hab with h1 | rfl
  · rcases hba with h2 | rfl
    · exact absurd (strLt_asymm h1 h2) not_false
    · rfl
  · rfl

instance : IsTotal String strLe := by
  constructor
  intro a b
  rcases strLt_trichotomy a b with h | rfl | h
  · exact Or.inl (Or.inl h)
  · exact Or.inl (Or.inr rfl)
  · exact Or.inr (Or.inl h)

/-- Lexicographic order on (asset key, partition key) pairs, used to lay a
subset out canonically in its storage form. -/
def apLe (a b : String × String) : Prop :=
  strLt a.1 b.1 ∨ (a.1 = b.1 ∧ strLe a.2 b.2)

instance : DecidableRel apLe := fun a b => by
  unfold apLe; infer_instance

instance : IsTrans (String × String) apLe := by
  constructor
  intro a b c hab hbc
  rcases hab with h1 | ⟨h1, h2⟩ <;> rcases hbc with h3 | ⟨h3, h4⟩
  · exact Or.inl (strLt_trans h1 h3)
  · exact Or.inl (h3 ▸ h1)
  · exact Or.inl (h1 ▸ h3)
  · exact Or.inr ⟨h1.trans h3, (inferInstance : IsTrans String strLe).trans _ _ _ h2 h4⟩

instance : IsAntisymm (String × String) apLe := by
  constructor
  intro a b hab hba
  rcases hab with h1 | ⟨h1, h2⟩ <;> rcases hba with h3 | ⟨h3, h4⟩
  · exact absurd (strLt_asymm h1 h3) not_false
  · exact absurd (h3 ▸ h1) (fun hc => strLt_asymm hc hc)
  · exact absurd (h1 ▸ h3) (fun hc => strLt_asymm hc hc)
  · exact Prod.ext h1 ((inferInstance : IsAntisymm String strLe).antisymm _ _ h2 h4)

instance : IsTotal (String × String) apLe := by
  constructor
  intro a b
  rcases strLt_trichotomy a.1 b.1 with h | h | h
  · exact Or.inl (Or.inl h)
  · rcases (inferInstance : IsTotal String strLe).total a.2 b.2 with h2 | h2
    · exact Or.inl (Or.inr ⟨h, h2⟩)
    · exact Or.inr (Or.inr ⟨h.symm, h2⟩)
  · exact Or.inr (Or.inl h)

structure SerializedAssetGraphSubset where
  partitions : List (String × String)
  non_partitioned_asset_keys : List String
deriving DecidableEq, Repr

def AssetGraphSubset.to_storage_dict (s : AssetGraphSubset) : SerializedAssetGraphSubset :=
  SerializedAssetGraphSubset.mk (s.partitions.sort apLe)
    (s.non_partitioned_asset_keys.sort strLe)

def AssetGraphSubset.from_storage_dict (x : SerializedAssetGraphSubset) : AssetGraphSubset :=
  AssetGraphSubset.mk x.partitions.toFinset x.non_partitioned_asset_keys.toFinset

/-- A storage form is canonical when its listings are duplicate-free and in
canonical order (which is how `to_storage_dict` lays them out). -/
def SerializedAssetGraphSubset.canonical (x : SerializedAssetGraphSubset) : Prop :=
  x.partitions.Sorted apLe ∧ x.partitions.Nodup ∧
    x.non_partitioned_asset_keys.Sorted strLe ∧ x.non_partitioned_asset_keys.Nodup

instance (x : SerializedAssetGraphSubset) : Decidable x.canonical := by
  unfold SerializedAssetGraphSubset.canonical; infer_instance

/-- The asset keys the current asset graph knows, split by whether the asset
has a partitions definition. -/
structure AssetGraphKeys where
  partitioned_assets : Finset String
  non_partitioned_assets : Finset String
deriving DecidableEq

/-- `AssetGraphSubset.can_deserialize`: every stored asset key must still
exist in the current asset graph with matching partitioned-ness. -/
def AssetGraphSubset.can_deserialize (x : SerializedAssetGraphSubset)
    (g : AssetGraphKeys) : Bool :=
  x.partitions.all (fun p => p.1 ∈ g.partitioned_assets) &&
    x.non_partitioned_asset_keys.all (fun k => k ∈ g.non_partitioned_assets)

lemma sort_toFinset_eq_self {α : Type} [DecidableEq α] (r : α → α → Prop) [DecidableRel r]
    [IsTrans α r] [IsAntisymm α r] [IsTotal α r]
    (l : List α) (hnd : l.Nodup) (hs : l.Sorted r) :
    l.toFinset.sort r = l :=
  (List.toFinset_sort r hnd).mpr hs

/-! ## `AssetBackfillData` (asset_backfill.py lines 59-285). -/

structure AssetBackfillData where
  target_subset : AssetGraphSubset
  requested_runs_for_target_roots : Bool
  latest_storage_id : Option Nat
  materialized_subset : AssetGraphSubset
  requested_subset : AssetGraphSubset
  failed_and_downstream_subset : AssetGraphSubset
deriving DecidableEq

def AssetBackfillData.is_complete (d : AssetBackfillData) : Bool :=
  (d.materialized_subset.union
      d.failed_and_downstream_subset).num_partitions_and_non_partitioned_assets
    == d.target_subset.num_partitions_and_non_partitioned_assets

def AssetBackfillData.empty (target_subset : AssetGraphSubset) : AssetBackfillData :=
  AssetBackfillData.mk target_subset false none
    AssetGraphSubset.empty AssetGraphSubset.empty AssetGraphSubset.empty

structure SerializedAssetBackfillData where
  serialized_target_subset : SerializedAssetGraphSubset
  requested_runs_for_target_roots : Bool
  latest_storage_id : Option Nat
  serialized_requested_subset : SerializedAssetGraphSubset
  serialized_materialized_subset : SerializedAssetGraphSubset
  serialized_failed_subset : SerializedAssetGraphSubset
deriving DecidableEq, Repr

def AssetBackfillData.is_valid_serialization (x : SerializedAssetBackfillData)
    (g : AssetGraphKeys) : Bool :=
  AssetGraphSubset.can_deserialize x.serialized_target_subset g

def AssetBackfillData.from_serialized (x : SerializedAssetBackfillData) : AssetBackfillData :=
  AssetBackfillData.mk
    (AssetGraphSubset.from_storage_dict x.serialized_target_subset)
    x.requested_runs_for_target_roots
    x.latest_storage_id
    (AssetGraphSubset.from_storage_dict x.serialized_materialized_subset)
    (AssetGraphSubset.from_storage_dict x.serialized_requested_subset)
    (AssetGraphSubset.from_storage_dict x.serialized_failed_subset)

def AssetBackfillData.serialize (d : AssetBackfillData) : SerializedAssetBackfillData :=
  SerializedAssetBackfillData.mk
    d.target_subset.to_storage_dict
    d.requested_runs_for_target_roots
    d.latest_storage_id
    d.requested_subset.to_storage_dict
    d.materialized_subset.to_storage_dict
    d.failed_and_downstream_subset.to_storage_dict

lemma to_storage_from_storage (x : SerializedAssetGraphSubset) (h : x.canonical) :
    (AssetGraphSubset.from_storage_dict x).to_storage_dict = x := by
  obtain ⟨hs1, hn1, hs2, hn2⟩ := h
  unfold AssetGraphSubset.from_storage_dict AssetGraphSubset.to_storage_dict
  cases x with
  | mk ps ks =>
    congr 1
    · exact sort_toFinset_eq_self apLe ps hn1 hs1
    · exact sort_toFinset_eq_self strLe ks hn2 hs2

/-- C4: for every storage value that deserializes against the current asset
graph (and is in the canonical layout `serialize` produces),
`AssetBackfillData.from_serialized` followed by `AssetBackfillData.serialize`
reproduces the storage value exactly, across all six stored keys. -/
theorem serialize_from_serialized_identity (x : SerializedAssetBackfillData)
    (g : AssetGraphKeys)
    (hvalid : AssetBackfillData.is_valid_serialization x g = true)
    (h1 : x.serialized_target_subset.canonical)
    (h2 : x.serialized_requested_subset.canonical)
    (h3 : x.serialized_materialized_subset.canonical)
    (h4 : x.serialized_failed_subset.canonical) :
    (AssetBackfillData.from_serialized x).serialize = x := by
  have e1 := to_storage_from_storage x.serialized_target_subset h1
  have e2 := to_storage_from_storage x.serialized_requested_subset h2
  have e3 := to_storage_from_storage x.serialized_materialized_subset h3
  have e4 := to_storage_from_storage x.serialized_failed_subset h4
  cases x with
  | mk t f l rq m fl =>
    simp only [AssetBackfillData.from_serialized, AssetBackfillData.serialize] at e1 e2 e3 e4 ⊢
    rw [e1, e2, e3, e4]

def c4_storage : SerializedAssetBackfillData :=
  SerializedAssetBackfillData.mk
    (SerializedAssetGraphSubset.mk [("a", "p1"), ("a", "p2"), ("b", "p1")] ["c"])
    true (some 5)
    (SerializedAssetGraphSubset.mk [("a", "p1")] [])
    (SerializedAssetGraphSubset.mk [] ["c"])
    (SerializedAssetGraphSubset.mk [] [])

def c4_graph : AssetGraphKeys :=
  AssetGraphKeys.mk {"a", "b"} {"c"}

/-- C4 witness: a concrete canonical storage value, valid against a concrete
asset graph, round-trips to itself. -/
theorem serialize_from_serialized_identity_witness :
    AssetBackfillData.is_valid_serialization c4_storage c4_graph = true ∧
    (AssetBackfillData.from_serialized c4_storage).serialize = c4_storage :=
  ⟨by decide,
    serialize_from_serialized_identity c4_storage c4_graph (by decide)
      (by decide) (by decide) (by decide) (by decide)⟩

/-- C5 counterexample: the claim's "in particular an empty target subset is
trivially complete" fails for arbitrary values — a datum whose target is
empty but whose materialized subset is non-empty has
`is_complete() = False`, since the union count (1) differs from the target
count (0). -/
theorem empty_target_not_trivially_complete :
    (AssetBackfillData.mk AssetGraphSubset.empty false none
        (AssetGraphSubset.mk ∅ {"a"}) AssetGraphSubset.empty
        AssetGraphSubset.empty).target_subset.num_partitions_and_non_partitioned_assets = 0 ∧
    (AssetBackfillData.mk AssetGraphSubset.empty false none
        (AssetGraphSubset.mk ∅ {"a"}) AssetGraphSubset.empty
        AssetGraphSubset.empty).is_complete = false := by decide

/-- C5 (amended): `is_complete()` is true iff the per-partition count (plus
non-partitioned assets) of materialized ∪ failed-and-downstream equals the
target's count; an empty target is complete when the bookkeeping subsets are
empty as well (as in `AssetBackfillData.empty`), though not for arbitrary
values whose materialized/failed subsets are non-empty. -/
theorem is_complete_iff_counts_equal (d : AssetBackfillData) :
    (d.is_complete = true ↔
      (d.materialized_subset.union
          d.failed_and_downstream_subset).num_partitions_and_non_partitioned_assets
        = d.target_subset.num_partitions_and_non_partitioned_assets) ∧
    (AssetBackfillData.empty AssetGraphSubset.empty).is_complete = true :=
  ⟨by simp [AssetBackfillData.is_complete], by decide⟩

/-! ## `should_backfill_atomic_asset_partitions_unit` (asset_backfill.py lines 566-603).

The asset graph services the predicate consumes (`get_parents_partitions`,
`have_same_partitioning`, `get_repository_handle`; `asset_graph.py` and
`external_asset_graph.py` are not under `src/`) are passed in as data;
repository handles are identifiers compared for identity (`is` in the
source). -/

structure BackfillAssetGraph where
  get_parents_partitions : AssetKeyPartitionKey → List AssetKeyPartitionKey
  have_same_partitioning : String → String → Bool
  get_repository_handle : String → Nat

def should_backfill_atomic_asset_partitions_unit
    (asset_graph : BackfillAssetGraph)
    (candidates_unit : List AssetKeyPartitionKey)
    (asset_partitions_to_request : Finset AssetKeyPartitionKey)
    (target_subset : AssetGraphSubset)
    (materialized_subset : AssetGraphSubset)
    (failed_and_downstream_subset : AssetGraphSubset) : Bool :=
  candidates_unit.all fun candidate =>
    if !(target_subset.contains candidate)
        || failed_and_downstream_subset.contains candidate
        || materialized_subset.contains candidate then
      false
    else
      (asset_graph.get_parents_partitions candidate).all fun parent =>
        let can_run_with_parent :=
          decide (parent ∈ asset_partitions_to_request)
            && asset_graph.have_same_partitioning parent.asset_key candidate.asset_key
            && decide (parent.partition_key = candidate.partition_key)
            && decide (asset_graph.get_repository_handle candidate.asset_key
              = asset_graph.get_repository_handle parent.asset_key)
        !(target_subset.contains parent && !can_run_with_parent
            && !(materialized_subset.contains parent))

/-- C7: a unit of asset-partitions is accepted iff every candidate in it is
(a) inside the target subset, (b) outside the failed-and-downstream subset,
(c) outside the materialized subset, and (d) every parent inside the target
subset is either already materialized or being requested in the same wave
with identical partitioning, identical partition key, and the same owning
repository handle. -/
theorem should_backfill_unit_iff (asset_graph : BackfillAssetGraph)
    (candidates_unit : List AssetKeyPartitionKey)
    (asset_partitions_to_request : Finset AssetKeyPartitionKey)
    (target_subset materialized_subset failed_and_downstream_subset : AssetGraphSubset) :
    should_backfill_atomic_asset_partitions_unit asset_graph candidates_unit
      asset_partitions_to_request target_subset materialized_subset
      failed_and_downstream_subset = true ↔
      ∀ candidate ∈ candidates_unit,
        target_subset.contains candidate = true ∧
        failed_and_downstream_subset.contains candidate = false ∧
        materialized_subset.contains candidate = false ∧
        ∀ parent ∈ asset_graph.get_parents_partitions candidate,
          target_subset.contains parent = true →
          materialized_subset.contains parent = true ∨
            (parent ∈ asset_partitions_to_request ∧
              asset_graph.have_same_partitioning parent.asset_key candidate.asset_key = true ∧
              parent.partition_key = candidate.partition_key ∧
              asset_graph.get_repository_handle candidate.asset_key
                = asset_graph.get_repository_handle parent.asset_key) := by
  unfold should_backfill_atomic_asset_partitions_unit
  rw [List.all_eq_true]
  refine forall₂_congr fun candidate _ => ?_
  cases ht : target_subset.contains candidate <;>
    cases hf : failed_and_downstream_subset.contains candidate <;>
    cases hm : materialized_subset.contains candidate <;>
    simp [ht, hf, hm, Bool.and_eq_true, decide_eq_true_eq] <;>
    (refine forall₂_congr fun parent _ => ?_
     cases htp : target_subset.contains parent <;>
       cases hmp : materialized_subset.contains parent <;>
       simp [htp, hmp] <;> tauto)

/-! ## `execute_asset_backfill_iteration_inner` (asset_backfill.py lines 443-563).

The instance services and the asset-graph helpers the iteration invokes but
that live outside `src/` are passed in as data: -/

/-- A materialization event-log record (`get_materialization_records`). -/
structure MaterializationRecord where
  run_id : String
  partition_key : Option String
deriving DecidableEq, Repr

/-- One run returned by `instance.get_runs` filtered to CANCELED/FAILURE
runs tagged with the backfill id, together with the per-run queries
`_get_failed_asset_partitions` makes on it. -/
structure FailedRunRecord where
  partition_tag : Option String
  planned_asset_keys : Finset String
  completed_asset_keys : Finset String

/-- `_get_failed_asset_partitions` (asset_backfill.py lines 608-641): for
each canceled/failed run of the backfill, every planned-but-not-completed
asset key becomes a failed asset-partition under the run's partition tag. -/
def get_failed_asset_partitions (runs : List FailedRunRecord) :
    List AssetKeyPartitionKey :=
  runs.foldl
    (fun result run =>
      result ++ ((run.planned_asset_keys \ run.completed_asset_keys).sort strLe).map
        (fun k => AssetKeyPartitionKey.mk k run.partition_tag))
    []

structure BackfillIterationEnv where
  asset_graph : BackfillAssetGraph
  /-- `instance_queryer.get_latest_storage_id(ASSET_MATERIALIZATION)`. -/
  latest_storage_id_for_materializations : Option Nat
  /-- Modelled from the spec: `find_parent_materialized_asset_partitions`
  (asset_reconciliation_sensor.py is not under `src/`) — asset-partitions
  whose parents materialized since the given cursor, with the new cursor. -/
  find_parent_materialized : Option Nat → List AssetKeyPartitionKey × Option Nat
  /-- `instance_queryer.get_materialization_records(asset_key, after_cursor)`. -/
  get_materialization_records : String → Option Nat → List MaterializationRecord
  /-- `instance_queryer.run_has_tag(run_id, BACKFILL_ID_TAG, backfill_id)`. -/
  run_has_backfill_tag : String → Bool
  /-- canceled/failed runs of this backfill (`instance.get_runs`). -/
  failed_and_canceled_runs : List FailedRunRecord
  /-- Modelled from the spec: `asset_graph.bfs_filter_asset_partitions`
  (asset_graph.py is not under `src/`) — breadth-first expansion from the
  initial asset-partitions guarded by the given unit-acceptance predicate
  (which also receives the already-visited set). -/
  bfs_filter_asset_partitions :
    (List AssetKeyPartitionKey → Finset AssetKeyPartitionKey → Bool) →
      List AssetKeyPartitionKey → List AssetKeyPartitionKey
  /-- Modelled from the spec: the root (no-parent) asset-partitions of the
  target subset (`get_target_root_asset_partitions`; the `AssetSelection`
  resolution it performs is not under `src/`). -/
  target_root_asset_partitions : List AssetKeyPartitionKey

/-- Modelled from the spec: `build_run_requests`
(asset_reconciliation_sensor.py is not under `src/`) groups the accepted
asset-partitions per partition key into run requests naming the grouped
asset keys. -/
structure RunRequest where
  partition_key : Option String
  asset_keys : List String
deriving DecidableEq, Repr

def build_run_requests (asset_partitions : List AssetKeyPartitionKey) :
    List RunRequest :=
  ((asset_partitions.map (fun x => x.partition_key)).dedup).map
    (fun p => RunRequest.mk p
      ((asset_partitions.filter (fun x => x.partition_key = p)).map
        (fun x => x.asset_key)))

/-- The exceptions `execute_asset_backfill_iteration_inner` can surface:
`check.invariant` raises a CheckError; `DagsterBackfillFailedError` is a
distinct class raised elsewhere (e.g. `from_asset_partitions`). -/
inductive BackfillRunError where
  | check_error (msg : String)
  | backfill_failed_error (msg : String)
deriving DecidableEq, Repr

structure AssetBackfillIterationResult where
  run_requests : List RunRequest
  backfill_data : AssetBackfillData
deriving DecidableEq

/-- Python `a or b` on `Optional[int]`: `a` unless it is `None` or `0`. -/
def optNatOr (a b : Option Nat) : Option Nat :=
  match a with
  | some n => if n = 0 then b else some n
  | none => b

def execute_asset_backfill_iteration_inner (env : BackfillIterationEnv)
    (asset_backfill_data : AssetBackfillData) :
    Except BackfillRunError AssetBackfillIterationResult :=
  let request_roots := !asset_backfill_data.requested_runs_for_target_roots
  let branch :
      List AssetKeyPartitionKey × Option Nat × AssetGraphSubset × AssetGraphSubset :=
    if request_roots then
      (env.target_root_asset_partitions,
        env.latest_storage_id_for_materializations,
        AssetGraphSubset.empty, AssetGraphSubset.empty)
    else
      let fp := env.find_parent_materialized asset_backfill_data.latest_storage_id
      let recently_materialized_asset_partitions :=
        ((asset_backfill_data.target_subset.asset_keys).sort strLe).foldl
          (fun acc asset_key =>
            acc.with_asset_partitions
              (((env.get_materialization_records asset_key
                  asset_backfill_data.latest_storage_id).filter
                (fun record => env.run_has_backfill_tag record.run_id)).map
                (fun record => AssetKeyPartitionKey.mk asset_key record.partition_key)))
          AssetGraphSubset.empty
      let updated_materialized_subset :=
        asset_backfill_data.materialized_subset.union
          recently_materialized_asset_partitions
      let failed_and_downstream_subset :=
        AssetGraphSubset.empty.with_asset_partitions
          (env.bfs_filter_asset_partitions
            (fun asset_partitions _ =>
              asset_partitions.any
                (fun asset_partition =>
                  asset_backfill_data.target_subset.contains asset_partition))
            (get_failed_asset_partitions env.failed_and_canceled_runs))
      (fp.1, fp.2, updated_materialized_subset, failed_and_downstream_subset)
  let initial_candidates := branch.1
  let next_latest_storage_id := branch.2.1
  let updated_materialized_subset := branch.2.2.1
  let failed_and_downstream_subset := branch.2.2.2
  let asset_partitions_to_request :=
    env.bfs_filter_asset_partitions
      (fun unit visited =>
        should_backfill_atomic_asset_partitions_unit env.asset_graph unit visited
          asset_backfill_data.target_subset updated_materialized_subset
          failed_and_downstream_subset)
      initial_candidates
  let run_requests := build_run_requests asset_partitions_to_request
  if request_roots ∧ run_requests.length = 0 then
    Except.error (BackfillRunError.check_error
      "At least one run should be requested on first backfill iteration")
  else
    Except.ok (AssetBackfillIterationResult.mk run_requests
      (AssetBackfillData.mk
        asset_backfill_data.target_subset
        (asset_backfill_data.requested_runs_for_target_roots || request_roots)
        (optNatOr next_latest_storage_id asset_backfill_data.latest_storage_id)
        updated_materialized_subset
        (asset_backfill_data.requested_subset.with_asset_partitions
          asset_partitions_to_request)
        failed_and_downstream_subset))

lemma with_asset_partitions_mono (xs : List AssetKeyPartitionKey) (s : AssetGraphSubset) :
    s.partitions ⊆ (s.with_asset_partitions xs).partitions ∧
      s.non_partitioned_asset_keys ⊆
        (s.with_asset_partitions xs).non_partitioned_asset_keys := by
  induction xs generalizing s with
  | nil => exact ⟨Finset.Subset.refl _, Finset.Subset.refl _⟩
  | cons x t ih =>
    rcases hx : x.partition_key with _ | p
    · have step : s.with_asset_partitions (x :: t) =
          (AssetGraphSubset.mk s.partitions
            (insert x.asset_key s.non_partitioned_asset_keys)).with_asset_partitions t := by
        unfold AssetGraphSubset.with_asset_partitions
        rw [List.foldl_cons, hx]
      rw [step]
      obtain ⟨h1, h2⟩ := ih (AssetGraphSubset.mk s.partitions
        (insert x.asset_key s.non_partitioned_asset_keys))
      exact ⟨h1, Finset.Subset.trans (Finset.subset_insert _ _) h2⟩
    · have step : s.with_asset_partitions (x :: t) =
          (AssetGraphSubset.mk (insert (x.asset_key, p) s.partitions)
            s.non_partitioned_asset_keys).with_asset_partitions t := by
        unfold AssetGraphSubset.with_asset_partitions
        rw [List.foldl_cons, hx]
      rw [step]
      obtain ⟨h1, h2⟩ := ih (AssetGraphSubset.mk (insert (x.asset_key, p) s.partitions)
        s.non_partitioned_asset_keys)
      exact ⟨Finset.Subset.trans (Finset.subset_insert _ _) h1, h2⟩

lemma subset_of_with_asset_partitions (s : AssetGraphSubset)
    (xs : List AssetKeyPartitionKey) :
    s.subset_of (s.with_asset_partitions xs) = true := by
  obtain ⟨h1, h2⟩ := with_asset_partitions_mono xs s
  simp [AssetGraphSubset.subset_of, h1, h2]

lemma subset_of_union_left (s t : AssetGraphSubset) :
    s.subset_of (s.union t) = true := by
  simp only [AssetGraphSubset.subset_of, AssetGraphSubset.union, Bool.and_eq_true,
    decide_eq_true_eq]
  exact ⟨Finset.subset_union_left, Finset.subset_union_left⟩

/-- C9 (amended): across one iteration the target subset is unchanged and the
requested subset only grows; the materialized subset only grows on non-first
iterations (`requested_runs_for_target_roots` already true).  On the first
iteration the materialized and failed-and-downstream subsets are recomputed
from scratch (reset to the freshly computed values, empty in the
root-requesting branch), and the failed-and-downstream subset is always
recomputed from the currently stored failed runs rather than accumulated. -/
theorem backfill_bookkeeping_growth (env : BackfillIterationEnv)
    (d : AssetBackfillData) (result : AssetBackfillIterationResult)
    (h : execute_asset_backfill_iteration_inner env d = Except.ok result) :
    result.backfill_data.target_subset = d.target_subset ∧
    d.requested_subset.subset_of result.backfill_data.requested_subset = true ∧
    (d.requested_runs_for_target_roots = true →
      d.materialized_subset.subset_of result.backfill_data.materialized_subset = true) := by
  by_cases hflag : d.requested_runs_for_target_roots = true
  · unfold execute_asset_backfill_iteration_inner at h
    simp only [hflag, Bool.not_true, Bool.false_eq_true, false_and, if_neg, if_false,
      Except.ok.injEq, reduceIte] at h
    subst h
    refine ⟨rfl, subset_of_with_asset_partitions _ _, fun _ => ?_⟩
    exact subset_of_union_left _ _
  · have hflag' : d.requested_runs_for_target_roots = false := by
      cases hfv : d.requested_runs_for_target_roots
      · rfl
      · exact absurd hfv hflag
    unfold execute_asset_backfill_iteration_inner at h
    simp only [hflag', Bool.not_false, true_and, reduceIte] at h
    split at h
    · exact absurd h (by simp)
    · simp only [Except.ok.injEq] at h
      subst h
      exact ⟨rfl, subset_of_with_asset_partitions _ _, fun hc => absurd hc hflag⟩

/-- C9 counterexample: on the very first iteration
(`requested_runs_for_target_roots` false) the updated materialized subset is
rebuilt as the empty subset, so it is NOT a superset of the input's
materialized subset — bookkeeping is not append-only for every input. -/
def c9_env : BackfillIterationEnv :=
  BackfillIterationEnv.mk
    (BackfillAssetGraph.mk (fun _ => []) (fun _ _ => true) (fun _ => 0))
    none
    (fun _ => ([], none))
    (fun _ _ => [])
    (fun _ => false)
    []
    (fun pred initial => if pred initial ∅ then initial else [])
    [AssetKeyPartitionKey.mk "a" none]

def c9_data : AssetBackfillData :=
  AssetBackfillData.mk
    (AssetGraphSubset.mk ∅ {"a"})
    false
    none
    (AssetGraphSubset.mk ∅ {"b"})
    AssetGraphSubset.empty
    AssetGraphSubset.empty

def materialized_subset_after
    (r : Except BackfillRunError AssetBackfillIterationResult) :
    Option AssetGraphSubset :=
  match r with
  | .ok res => some res.backfill_data.materialized_subset
  | .error _ => none

theorem backfill_materialized_subset_reset_on_first_iteration :
    materialized_subset_after (execute_asset_backfill_iteration_inner c9_env c9_data)
      = some AssetGraphSubset.empty ∧
    c9_data.materialized_subset.subset_of AssetGraphSubset.empty = false :=
  ⟨rfl, by decide⟩

def c9_data_resumed : AssetBackfillData :=
  AssetBackfillData.mk
    (AssetGraphSubset.mk ∅ {"a"})
    true
    none
    (AssetGraphSubset.mk ∅ {"b"})
    AssetGraphSubset.empty
    AssetGraphSubset.empty

def c9_result : AssetBackfillIterationResult :=
  match execute_asset_backfill_iteration_inner c9_env c9_data_resumed with
  | .ok r => r
  | .error _ =>
      AssetBackfillIterationResult.mk [] (AssetBackfillData.empty AssetGraphSubset.empty)

/-- C9 witness: a concrete non-first iteration where the amended growth
properties hold. -/
theorem backfill_bookkeeping_growth_witness :
    c9_result.backfill_data.target_subset = c9_data_resumed.target_subset ∧
    c9_data_resumed.requested_subset.subset_of
      c9_result.backfill_data.requested_subset = true ∧
    (c9_data_resumed.requested_runs_for_target_roots = true →
      c9_data_resumed.materialized_subset.subset_of
        c9_result.backfill_data.materialized_subset = true) :=
  backfill_bookkeeping_growth c9_env c9_data_resumed c9_result rfl

/-- C6 (amended): on the very first iteration (requested_runs_for_target_roots
false), if zero run requests are computed after seeding candidates with the
target roots, the iteration fails — `check.invariant` raises a CheckError
("At least one run should be requested on first backfill iteration") — rather
than returning an empty result.  The exception class is CheckError, not
DagsterBackfillFailedError. -/
theorem first_iteration_zero_run_requests_fails (env : BackfillIterationEnv)
    (d : AssetBackfillData)
    (hfirst : d.requested_runs_for_target_roots = false)
    (hzero : build_run_requests (env.bfs_filter_asset_partitions
        (fun unit visited =>
          should_backfill_atomic_asset_partitions_unit env.asset_graph unit visited
            d.target_subset AssetGraphSubset.empty AssetGraphSubset.empty)
        env.target_root_asset_partitions) = []) :
    execute_asset_backfill_iteration_inner env d =
      Except.error (BackfillRunError.check_error
        "At least one run should be requested on first backfill iteration") := by
  unfold execute_asset_backfill_iteration_inner
  simp [hfirst, hzero]

def c6_env : BackfillIterationEnv :=
  BackfillIterationEnv.mk
    (BackfillAssetGraph.mk (fun _ => []) (fun _ _ => true) (fun _ => 0))
    none
    (fun _ => ([], none))
    (fun _ _ => [])
    (fun _ => false)
    []
    (fun _ _ => [])
    [AssetKeyPartitionKey.mk "a" none]

def c6_data : AssetBackfillData :=
  AssetBackfillData.empty (AssetGraphSubset.mk ∅ {"a"})

def is_backfill_failed_error :
    Except BackfillRunError AssetBackfillIterationResult → Bool
  | .error (.backfill_failed_error _) => true
  | _ => false

/-- C6 counterexample: the failure raised on a stuck first iteration is a
CheckError from `check.invariant`, not the claimed BackfillFailedError
(`DagsterBackfillFailedError` is raised only elsewhere, e.g. in
`from_asset_partitions`). -/
theorem first_iteration_failure_is_check_error :
    execute_asset_backfill_iteration_inner c6_env c6_data =
      Except.error (BackfillRunError.check_error
        "At least one run should be requested on first backfill iteration") ∧
    is_backfill_failed_error
      (execute_asset_backfill_iteration_inner c6_env c6_data) = false :=
  ⟨rfl, rfl⟩

/-- C6 witness: the amended theorem applied at the concrete stuck first
iteration. -/
theorem first_iteration_zero_run_requests_fails_witness :
    execute_asset_backfill_iteration_inner c6_env c6_data =
      Except.error (BackfillRunError.check_error
        "At least one run should be requested on first backfill iteration") :=
  first_iteration_zero_run_requests_fails c6_env c6_data rfl rfl

/-! ## `get_subselected_graph_definition` (job_definition.py lines 821-914).

A graph is its node list (in topological order — modelled from the spec,
section 4.1: `nodes_in_topological_order` is deterministic with stable
tie-break, and `graph_definition.py` is not under `src/`), its dependency
structure (per node, per input), and its input/output mappings.  A node's
definition is either an op (with its declared input names) or a nested
graph, whose inputs are the names of its input mappings.  A selection tree
maps a node name to "fully selected" (leaf) or a nested selection
(branch). -/

inductive SelectionTreeNode where
  | leaf
  | branch (children : List (String × SelectionTreeNode))

/-- The three dependency variants the source queries on the dependency
structure: `has_direct_dep`/`get_direct_dep`, `has_dynamic_fan_in_dep`, and
`has_fan_in_deps` (whose entries are node outputs or
`MappedInputPlaceholder`s, modelled as `none`). -/
inductive InputDep where
  | direct (node output : String)
  | dynamic_collect (node output : String)
  | fan_in (entries : List (Option (String × String)))
deriving DecidableEq, Repr

inductive GraphDef where
  | mk
    (nodes : List (String × (List String ⊕ GraphDef)))
    (deps : List (String × List (String × InputDep)))
    (input_mappings : List (String × String × String))
    (output_mappings : List (String × String × String))

def GraphDef.nodes : GraphDef → List (String × (List String ⊕ GraphDef))
  | .mk ns _ _ _ => ns

def GraphDef.deps : GraphDef → List (String × List (String × InputDep))
  | .mk _ ds _ _ => ds

def GraphDef.input_mappings : GraphDef → List (String × String × String)
  | .mk _ _ ims _ => ims

def GraphDef.output_mappings : GraphDef → List (String × String × String)
  | .mk _ _ _ oms => oms

def GraphDef.node_names (g : GraphDef) : List String := g.nodes.map Prod.fst

/-- `node.inputs()`: an op node's declared inputs; a graph node's inputs are
derived from its input mappings. -/
def nodeInputs : (List String ⊕ GraphDef) → List String
  | .inl ins => ins
  | .inr g => g.input_mappings.map (fun m => m.1)

def lookupDep (deps : List (String × List (String × InputDep))) (node input : String) :
    Option InputDep :=
  (deps.lookup node).bind (fun l => l.lookup input)

/-- How one recorded dependency of a selected node is filtered against the
selection: direct and dynamic-fan-in dependencies are dropped entirely when
the upstream node is unselected (the input becomes unconnected); a fan-in
dependency is always rebuilt, keeping only entries that are node outputs of
selected nodes (placeholders are dropped). -/
def filterNodeDep (sel : List (String × SelectionTreeNode)) :
    InputDep → Option InputDep
  | .direct up out =>
      if (sel.lookup up).isSome then some (.direct up out) else none
  | .dynamic_collect up out =>
      if (sel.lookup up).isSome then some (.dynamic_collect up out) else none
  | .fan_in entries =>
      some (.fan_in (entries.filter (fun e =>
        match e with
        | some (up, _) => (sel.lookup up).isSome
        | none => false)))

/-- The `deps[_dep_key_of(node)]` dictionary built for one selected node:
for each of its inputs, the dependency structure is queried and the recorded
dependency is filtered against the selection. -/
def buildNodeDeps (sel : List (String × SelectionTreeNode))
    (gdeps : List (String × List (String × InputDep)))
    (name : String) (inputs : List String) : List (String × InputDep) :=
  inputs.filterMap (fun input =>
    (lookupDep gdeps name input).bind
      (fun d => (filterNodeDep sel d).map (fun d' => (input, d'))))

mutual

def get_subselected_graph_definition :
    GraphDef → List (String × SelectionTreeNode) → GraphDef
  | GraphDef.mk nodes gdeps ims oms, sel =>
    let selected_nodes :=
      nodes.attach.filterMap (fun nd => selectNode sel nd.val)
    GraphDef.mk selected_nodes
      (nodes.filterMap (fun nd =>
        if (sel.lookup nd.1).isSome then
          some (nd.1, buildNodeDeps sel gdeps nd.1 (nodeInputs nd.2))
        else none))
      (ims.filter (fun m => (selected_nodes.map Prod.fst).contains m.2.1))
      (oms.filter (fun m => (selected_nodes.map Prod.fst).contains m.2.1))
termination_by g _ => sizeOf g
decreasing_by
  simp_wf
  have h1 := List.sizeOf_lt_of_mem nd.property
  omega

/-- One node of the iteration: skipped when unselected; otherwise its
definition is kept, or rebuilt when it is a graph node under a nested
(non-leaf) selection. -/
def selectNode (sel : List (String × SelectionTreeNode))
    (nd : String × (List String ⊕ GraphDef)) :
    Option (String × (List String ⊕ GraphDef)) :=
  match sel.lookup nd.1 with
  | none => none
  | some selection_node => some (nd.1, rebuildPayload nd.2 selection_node)
termination_by sizeOf nd
decreasing_by
  cases hv : nd with
  | mk a b => simp [hv]

def rebuildPayload (payload : List String ⊕ GraphDef)
    (selection_node : SelectionTreeNode) : List String ⊕ GraphDef :=
  match payload, selection_node with
  | Sum.inr sub, SelectionTreeNode.branch children =>
      Sum.inr (get_subselected_graph_definition sub children)
  | payload, _ => payload
termination_by sizeOf payload

end

lemma attach_filterMap {α β : Type} (l : List α) (f : α → Option β) :
    l.attach.filterMap (fun x => f x.val) = l.filterMap f := by
  conv_rhs => rw [← List.attach_map_subtype_val l]
  rw [List.filterMap_map]
  rfl

lemma subset_nodes_def (nodes : List (String × (List String ⊕ GraphDef)))
    (gdeps : List (String × List (String × InputDep)))
    (ims oms : List (String × String × String))
    (sel : List (String × SelectionTreeNode)) :
    (get_subselected_graph_definition (GraphDef.mk nodes gdeps ims oms) sel).nodes =
      nodes.filterMap (selectNode sel) := by
  rw [get_subselected_graph_definition]
  simp only [GraphDef.nodes]
  exact attach_filterMap nodes (selectNode sel)

lemma subset_deps_def (nodes : List (String × (List String ⊕ GraphDef)))
    (gdeps : List (String × List (String × InputDep)))
    (ims oms : List (String × String × String))
    (sel : List (String × SelectionTreeNode)) :
    (get_subselected_graph_definition (GraphDef.mk nodes gdeps ims oms) sel).deps =
      nodes.filterMap (fun nd =>
        if (sel.lookup nd.1).isSome then
          some (nd.1, buildNodeDeps sel gdeps nd.1 (nodeInputs nd.2))
        else none) := by
  rw [get_subselected_graph_definition]
  simp only [GraphDef.deps]

lemma subset_ims_def (nodes : List (String × (List String ⊕ GraphDef)))
    (gdeps : List (String × List (String × InputDep)))
    (ims oms : List (String × String × String))
    (sel : List (String × SelectionTreeNode)) :
    (get_subselected_graph_definition (GraphDef.mk nodes gdeps ims oms) sel).input_mappings =
      ims.filter (fun m =>
        (((nodes.filterMap (selectNode sel)).map Prod.fst).contains m.2.1)) := by
  rw [get_subselected_graph_definition]
  simp only [GraphDef.input_mappings]
  rw [attach_filterMap nodes (selectNode sel)]

lemma subset_oms_def (nodes : List (String × (List String ⊕ GraphDef)))
    (gdeps : List (String × List (String × InputDep)))
    (ims oms : List (String × String × String))
    (sel : List (String × SelectionTreeNode)) :
    (get_subselected_graph_definition (GraphDef.mk nodes gdeps ims oms) sel).output_mappings =
      oms.filter (fun m =>
        (((nodes.filterMap (selectNode sel)).map Prod.fst).contains m.2.1)) := by
  rw [get_subselected_graph_definition]
  simp only [GraphDef.output_mappings]
  rw [attach_filterMap nodes (selectNode sel)]

/-- The node-name sequence of the subselected graph: exactly the selected
names, in the original (topological) order. -/
lemma subset_node_names (g : GraphDef) (sel : List (String × SelectionTreeNode)) :
    (get_subselected_graph_definition g sel).node_names =
      g.node_names.filter (fun n => (sel.lookup n).isSome) := by
  cases g with
  | mk nodes gdeps ims oms =>
    rw [GraphDef.node_names, GraphDef.node_names, subset_nodes_def]
    simp only [GraphDef.nodes]
    induction nodes with
    | nil => rfl
    | cons nd t ih =>
      rw [List.filterMap_cons, List.map_cons, List.filter_cons]
      cases hl : sel.lookup nd.1 with
      | none =>
          rw [selectNode]
          rw [hl]
          simpa [hl] using ih
      | some sn =>
          rw [selectNode]
          rw [hl]
          simpa [hl] using ih

lemma lookup_cons_ne {β : Type} (k : String) (e : String × β) (t : List (String × β))
    (h : k ≠ e.1) : (e :: t).lookup k = t.lookup k := by
  cases e with
  | mk k' v =>
    have hb : (k == k') = false := by simpa using h
    simp [List.lookup, hb]

lemma lookup_cons_self {β : Type} (e : String × β) (t : List (String × β)) :
    (e :: t).lookup e.1 = some e.2 := by
  cases e with
  | mk k' v =>
    simp [List.lookup]

lemma lookup_eq_none_of_not_mem {β : Type} (l : List (String × β)) (k : String)
    (h : k ∉ l.map Prod.fst) : l.lookup k = none := by
  induction l with
  | nil => rfl
  | cons e t ih =>
    rw [List.map_cons, List.mem_cons] at h
    push_neg at h
    rw [lookup_cons_ne k e t h.1]
    exact ih h.2

lemma lookup_of_mem_nodup {β : Type} (l : List (String × β)) (e : String × β)
    (hm : e ∈ l) (hn : (l.map Prod.fst).Nodup) : l.lookup e.1 = some e.2 := by
  induction l with
  | nil => cases hm
  | cons x t ih =>
    rw [List.map_cons, List.nodup_cons] at hn
    rcases List.mem_cons.mp hm with he | hmt
    · rw [he]
      exact lookup_cons_self x t
    · have hne : e.1 ≠ x.1 := by
        intro hc
        exact hn.1 (hc ▸ List.mem_map_of_mem Prod.fst hmt)
      rw [lookup_cons_ne e.1 x t hne]
      exact ih hmt hn.2

lemma mem_of_lookup_eq_some {β : Type} (l : List (String × β)) (k : String) (v : β)
    (h : l.lookup k = some v) : (k, v) ∈ l := by
  induction l with
  | nil => cases h
  | cons e t ih =>
    by_cases hk : k = e.1
    · rw [hk] at h ⊢
      rw [lookup_cons_self e t] at h
      injection h with h'
      rw [← h', Prod.mk.eta]
      exact List.mem_cons_self _ _
    · rw [lookup_cons_ne k e t hk] at h
      exact List.mem_cons_of_mem _ (ih h)

lemma sublist_of_subset_of_nodup {α : Type} :
    ∀ (l s₁ s₂ : List α), List.Sublist s₁ l → List.Sublist s₂ l → l.Nodup →
      s₁ ⊆ s₂ → List.Sublist s₁ s₂ := by
  intro l
  induction l with
  | nil =>
    intro s₁ s₂ h1 _ _ _
    rw [List.sublist_nil.mp h1]
    exact List.nil_sublist s₂
  | cons a t ih =>
    intro s₁ s₂ h1 h2 hnd hsub
    obtain ⟨hat, hndt⟩ := List.nodup_cons.mp hnd
    cases h1 with
    | cons _ h1' =>
      cases h2 with
      | cons _ h2' => exact ih s₁ s₂ h1' h2' hndt hsub
      | cons₂ _ h2' =>
        rename_i s₂'
        refine List.Sublist.cons a ?_
        refine ih s₁ s₂' h1' h2' hndt ?_
        intro x hx
        rcases List.mem_cons.mp (hsub hx) with rfl | hx2
        · exact absurd (h1'.subset hx) hat
        · exact hx2
    | cons₂ _ h1' =>
      rename_i s₁'
      have ha : a ∈ s₂ := hsub (List.mem_cons_self a _)
      cases h2 with
      | cons _ h2' => exact absurd (h2'.subset ha) hat
      | cons₂ _ h2' =>
        rename_i s₂'
        refine List.Sublist.cons₂ a ?_
        refine ih s₁' s₂' h1' h2' hndt ?_
        intro x hx
        rcases List.mem_cons.mp (hsub (List.mem_cons_of_mem a hx)) with rfl | hx2
        · exact absurd (h1'.subset hx) hat
        · exact hx2

lemma filterMap_guard_eq_filter_map {α β : Type} (l : List α) (p : α → Bool)
    (F : α → Option β) (f : α → β)
    (hF : ∀ a ∈ l, F a = if p a then some (f a) else none) :
    l.filterMap F = (l.filter p).map f := by
  induction l with
  | nil => rfl
  | cons x t ih =>
    rw [List.filterMap_cons, List.filter_cons]
    have hx := hF x (List.mem_cons_self x t)
    have ht := ih (fun a ha => hF a (List.mem_cons_of_mem x ha))
    cases hp : p x
    · rw [hx, hp]
      simpa using ht
    · rw [hx, hp]
      simpa using ht

lemma filterMap_guard_eq_map {α β : Type} (l : List α) (p : α → Bool)
    (F : α → Option β) (f : α → β)
    (hF : ∀ a ∈ l, F a = if p a then some (f a) else none)
    (hall : ∀ a ∈ l, p a = true) :
    l.filterMap F = l.map f := by
  rw [filterMap_guard_eq_filter_map l p F f hF]
  rw [List.filter_eq_self.mpr hall]

/-- `selectNode` in guard form. -/
def selOf (sel : List (String × SelectionTreeNode)) (n : String) : SelectionTreeNode :=
  (sel.lookup n).getD SelectionTreeNode.leaf

lemma selectNode_guard (sel : List (String × SelectionTreeNode))
    (nd : String × (List String ⊕ GraphDef)) :
    selectNode sel nd =
      if (sel.lookup nd.1).isSome then
        some (nd.1, rebuildPayload nd.2 (selOf sel nd.1))
      else none := by
  rw [selectNode, selOf]
  cases h : sel.lookup nd.1 <;> simp [h]

lemma filterNodeDep_fix (sel : List (String × SelectionTreeNode)) (d v : InputDep)
    (h : filterNodeDep sel d = some v) : filterNodeDep sel v = some v := by
  cases d with
  | direct up out =>
    rw [filterNodeDep] at h
    split at h
    · next hc =>
      injection h with h'
      rw [← h', filterNodeDep, if_pos hc]
    · cases h
  | dynamic_collect up out =>
    rw [filterNodeDep] at h
    split at h
    · next hc =>
      injection h with h'
      rw [← h', filterNodeDep, if_pos hc]
    · cases h
  | fan_in entries =>
    rw [filterNodeDep] at h
    injection h with h'
    rw [← h', filterNodeDep, List.filter_filter]
    simp only [Bool.and_self]

lemma buildNodeDeps_keys_sublist (sel : List (String × SelectionTreeNode))
    (gdeps : List (String × List (String × InputDep))) (name : String)
    (inputs : List String) :
    List.Sublist ((buildNodeDeps sel gdeps name inputs).map Prod.fst) inputs := by
  unfold buildNodeDeps
  induction inputs with
  | nil => exact List.nil_sublist _
  | cons i t ih =>
    rw [List.filterMap_cons]
    cases hb : (lookupDep gdeps name i).bind
        (fun d => (filterNodeDep sel d).map (fun d' => (i, d'))) with
    | none => exact List.Sublist.cons i ih
    | some e =>
      have he : e.1 = i := by
        rcases hd : lookupDep gdeps name i with _ | d
        · rw [hd] at hb; cases hb
        · rw [hd] at hb
          rcases hf : filterNodeDep sel d with _ | d'
          · rw [Option.some_bind, hf] at hb; cases hb
          · rw [Option.some_bind, hf] at hb
            injection hb with hb'
            rw [← hb']
      rw [List.map_cons, he]
      exact List.Sublist.cons₂ i ih

lemma buildNodeDeps_mem (sel : List (String × SelectionTreeNode))
    (gdeps : List (String × List (String × InputDep))) (name : String)
    (inputs : List String) (e : String × InputDep)
    (hm : e ∈ buildNodeDeps sel gdeps name inputs) :
    filterNodeDep sel e.2 = some e.2 ∧
      ∃ d, lookupDep gdeps name e.1 = some d ∧ filterNodeDep sel d = some e.2 := by
  unfold buildNodeDeps at hm
  obtain ⟨i, _, hfi⟩ := List.mem_filterMap.mp hm
  rcases hd : lookupDep gdeps name i with _ | d
  · rw [hd] at hfi; cases hfi
  · rw [hd, Option.some_bind] at hfi
    rcases hf : filterNodeDep sel d with _ | d'
    · rw [hf] at hfi; cases hfi
    · rw [hf] at hfi
      injection hfi with hfi'
      rw [← hfi']
      exact ⟨filterNodeDep_fix sel d d' hf, d, hd, hf⟩

/-- Re-deriving the per-node dependency dictionary from an already-filtered
dictionary reproduces it exactly: the second pass walks the (possibly
shrunken but duplicate-free) input list, looks each input up, and the
filter is a no-op on already-filtered dependencies. -/
lemma rebuild_deps_core (sel : List (String × SelectionTreeNode)) :
    ∀ (keys newInputs : List String), List.Sublist keys newInputs →
      newInputs.Nodup →
      ∀ (E : List (String × InputDep)), E.map Prod.fst = keys →
        (∀ e ∈ E, filterNodeDep sel e.2 = some e.2) →
        newInputs.filterMap (fun i => (E.lookup i).bind
          (fun v => (filterNodeDep sel v).map (fun v' => (i, v')))) = E := by
  intro keys newInputs hsub
  induction hsub with
  | slnil =>
    intro _ E hE _
    rw [List.map_eq_nil_iff.mp hE]
    rfl
  | cons a hsub ih =>
    rename_i keys' t
    intro hnd E hE hfix
    obtain ⟨hat, hndt⟩ := List.nodup_cons.mp hnd
    rw [List.filterMap_cons]
    have ha : E.lookup a = none := by
      refine lookup_eq_none_of_not_mem E a ?_
      rw [hE]
      intro hc
      exact hat (hsub.subset hc)
    rw [ha, Option.none_bind]
    exact ih hndt E hE hfix
  | cons₂ a hsub ih =>
    rename_i keys' t
    intro hnd E hE hfix
    obtain ⟨hat, hndt⟩ := List.nodup_cons.mp hnd
    cases E with
    | nil => cases hE
    | cons e E' =>
      rw [List.map_cons] at hE
      injection hE with he1 hE'
      rw [List.filterMap_cons]
      have hl : (e :: E').lookup a = some e.2 := by
        rw [← he1]
        exact lookup_cons_self e E'
      rw [hl, Option.some_bind, hfix e (List.mem_cons_self e E'), Option.map_some']
      have hcongr : ∀ i ∈ t,
          ((e :: E').lookup i).bind
            (fun v => (filterNodeDep sel v).map (fun v' => (i, v'))) =
          (E'.lookup i).bind
            (fun v => (filterNodeDep sel v).map (fun v' => (i, v'))) := by
        intro i hi
        rw [lookup_cons_ne i e E' (by rw [he1]; exact fun hc => hat (hc ▸ hi))]
      rw [List.filterMap_congr hcongr]
      rw [ih hndt E' hE' (fun x hx => hfix x (List.mem_cons_of_mem e hx))]
      cases e with
      | mk k v =>
        simp only at he1
        rw [he1]

/-! ### Well-formedness.

`GraphDefinition` construction validates its structure (spec section 7:
definition errors are fatal and raised immediately): node names are unique
within the graph (spec section 3) and input names are unique per node;
`SubselectedGraphDefinition` construction additionally re-validates that
every recorded dependency targets an input that exists on the (possibly
shrunken) node definition.  The idempotence theorem is conditioned on these
checks, mirroring the fact that the source raises instead of returning a
graph that violates them. -/

mutual

def GraphDef.wellFormed : GraphDef → Bool
  | .mk nodes _ _ _ =>
    decide ((nodes.map Prod.fst).Nodup) &&
    nodes.attach.all (fun nd => payloadWF nd.val.2)
termination_by g => sizeOf g
decreasing_by
  simp_wf
  have h1 := List.sizeOf_lt_of_mem nd.property
  have h2 : sizeOf nd.val.2 ≤ sizeOf nd.val := by
    cases hv : nd.val with
    | mk a b => simp [hv]
  omega

def payloadWF : (List String ⊕ GraphDef) → Bool
  | .inl ins => decide (ins.Nodup)
  | .inr sub => decide ((nodeInputs (Sum.inr sub)).Nodup) && sub.wellFormed
termination_by p => sizeOf p

end

mutual

def GraphDef.depsValid : GraphDef → Bool
  | .mk nodes deps _ _ =>
    deps.all (fun d =>
      match nodes.lookup d.1 with
      | some p => (d.2.map Prod.fst).all (fun i => (nodeInputs p).contains i)
      | none => false) &&
    nodes.attach.all (fun nd => payloadDV nd.val.2)
termination_by g => sizeOf g
decreasing_by
  simp_wf
  have h1 := List.sizeOf_lt_of_mem nd.property
  have h2 : sizeOf nd.val.2 ≤ sizeOf nd.val := by
    cases hv : nd.val with
    | mk a b => simp [hv]
  omega

def payloadDV : (List String ⊕ GraphDef) → Bool
  | .inl _ => true
  | .inr sub => sub.depsValid
termination_by p => sizeOf p

end

lemma wellFormed_names_nodup {nodes : List (String × (List String ⊕ GraphDef))}
    {gdeps : List (String × List (String × InputDep))}
    {ims oms : List (String × String × String)}
    (h : (GraphDef.mk nodes gdeps ims oms).wellFormed = true) :
    (nodes.map Prod.fst).Nodup := by
  rw [GraphDef.wellFormed, Bool.and_eq_true] at h
  exact of_decide_eq_true h.1

lemma wellFormed_payload {nodes : List (String × (List String ⊕ GraphDef))}
    {gdeps : List (String × List (String × InputDep))}
    {ims oms : List (String × String × String)}
    (h : (GraphDef.mk nodes gdeps ims oms).wellFormed = true)
    (nd : String × (List String ⊕ GraphDef)) (hm : nd ∈ nodes) :
    payloadWF nd.2 = true := by
  rw [GraphDef.wellFormed, Bool.and_eq_true, List.all_eq_true] at h
  exact h.2 ⟨nd, hm⟩ (List.mem_attach nodes ⟨nd, hm⟩)

lemma payloadWF_inputs_nodup {p : List String ⊕ GraphDef}
    (h : payloadWF p = true) : (nodeInputs p).Nodup := by
  cases p with
  | inl ins =>
    rw [payloadWF] at h
    exact of_decide_eq_true h
  | inr sub =>
    rw [payloadWF, Bool.and_eq_true] at h
    exact of_decide_eq_true h.1

lemma payloadWF_sub {sub : GraphDef}
    (h : payloadWF (Sum.inr sub) = true) : sub.wellFormed = true := by
  rw [payloadWF, Bool.and_eq_true] at h
  exact h.2

lemma depsValid_entry {nodes : List (String × (List String ⊕ GraphDef))}
    {gdeps : List (String × List (String × InputDep))}
    {ims oms : List (String × String × String)}
    (h : (GraphDef.mk nodes gdeps ims oms).depsValid = true)
    (d : String × List (String × InputDep)) (hm : d ∈ gdeps) :
    ∃ p, nodes.lookup d.1 = some p ∧
      ∀ i ∈ d.2.map Prod.fst, (nodeInputs p).contains i = true := by
  rw [GraphDef.depsValid, Bool.and_eq_true] at h
  have h1 := h.1
  rw [List.all_eq_true] at h1
  have hd := h1 d hm
  rcases hl : nodes.lookup d.1 with _ | p
  · rw [hl] at hd
    cases hd
  · rw [hl] at hd
    rw [List.all_eq_true] at hd
    exact ⟨p, rfl, hd⟩

lemma depsValid_payload {nodes : List (String × (List String ⊕ GraphDef))}
    {gdeps : List (String × List (String × InputDep))}
    {ims oms : List (String × String × String)}
    (h : (GraphDef.mk nodes gdeps ims oms).depsValid = true)
    (nd : String × (List String ⊕ GraphDef)) (hm : nd ∈ nodes) :
    payloadDV nd.2 = true := by
  rw [GraphDef.depsValid, Bool.and_eq_true] at h
  have h2 := h.2
  rw [List.all_eq_true] at h2
  exact h2 ⟨nd, hm⟩ (List.mem_attach nodes ⟨nd, hm⟩)

lemma filter_fst_map_fst {β : Type} (nodes : List (String × β)) (q : String → Bool) :
    ((nodes.filter (fun nd => q nd.1)).map Prod.fst) = (nodes.map Prod.fst).filter q := by
  induction nodes with
  | nil => rfl
  | cons nd t ih =>
    rw [List.filter_cons, List.map_cons, List.filter_cons]
    cases hq : q nd.1
    · simpa [hq] using ih
    · simpa [hq] using ih

lemma rebuildPayload_inl (ins : List String) (sn : SelectionTreeNode) :
    rebuildPayload (Sum.inl ins) sn = Sum.inl ins := by
  rw [rebuildPayload.eq_def]

lemma rebuildPayload_leaf (p : List String ⊕ GraphDef) :
    rebuildPayload p SelectionTreeNode.leaf = p := by
  rw [rebuildPayload.eq_def]
  cases p <;> rfl

lemma rebuildPayload_branch (sub : GraphDef)
    (children : List (String × SelectionTreeNode)) :
    rebuildPayload (Sum.inr sub) (SelectionTreeNode.branch children) =
      Sum.inr (get_subselected_graph_definition sub children) := by
  rw [rebuildPayload.eq_def]

lemma rebuild_inputs_sublist (p : List String ⊕ GraphDef) (sn : SelectionTreeNode) :
    List.Sublist (nodeInputs (rebuildPayload p sn)) (nodeInputs p) := by
  cases p with
  | inl ins =>
    rw [rebuildPayload_inl]
  | inr sub =>
    cases sn with
    | leaf =>
      rw [rebuildPayload_leaf]
    | branch children =>
      rw [rebuildPayload_branch]
      cases sub with
      | mk snodes sdeps sims soms =>
        show List.Sublist
          ((get_subselected_graph_definition (GraphDef.mk snodes sdeps sims soms)
            children).input_mappings.map (fun m => m.1)) (sims.map (fun m => m.1))
        rw [subset_ims_def]
        exact (List.filter_sublist sims).map _

lemma GraphDef.ext_of (g h : GraphDef) (h1 : g.nodes = h.nodes) (h2 : g.deps = h.deps)
    (h3 : g.input_mappings = h.input_mappings)
    (h4 : g.output_mappings = h.output_mappings) : g = h := by
  cases g
  cases h
  simp only [GraphDef.nodes, GraphDef.deps, GraphDef.input_mappings,
    GraphDef.output_mappings] at h1 h2 h3 h4
  rw [h1, h2, h3, h4]

lemma payloadDV_sub (sub : GraphDef) (h : payloadDV (Sum.inr sub) = true) :
    sub.depsValid = true := by
  rw [payloadDV] at h
  exact h

lemma mem_of_contains {l : List String} {a : String} (h : l.contains a = true) :
    a ∈ l := by
  simpa using h

theorem subset_idempotent_aux :
    ∀ (n : Nat) (g : GraphDef), sizeOf g < n →
      g.wellFormed = true →
      ∀ sel : List (String × SelectionTreeNode),
        (get_subselected_graph_definition g sel).depsValid = true →
        get_subselected_graph_definition (get_subselected_graph_definition g sel) sel =
          get_subselected_graph_definition g sel := by
  intro n
  induction n with
  | zero =>
    intro g h
    omega
  | succ n ih =>
    intro g hsz hwf sel hdv
    cases g with
    | mk nodes gdeps ims oms =>
      have hGnodes :
          (get_subselected_graph_definition (GraphDef.mk nodes gdeps ims oms) sel).nodes =
            (nodes.filter (fun nd => (sel.lookup nd.1).isSome)).map
              (fun nd => (nd.1, rebuildPayload nd.2 (selOf sel nd.1))) := by
        rw [subset_nodes_def]
        exact filterMap_guard_eq_filter_map nodes (fun nd => (sel.lookup nd.1).isSome)
          (selectNode sel) (fun nd => (nd.1, rebuildPayload nd.2 (selOf sel nd.1)))
          (fun a _ => selectNode_guard sel a)
      have hGdeps :
          (get_subselected_graph_definition (GraphDef.mk nodes gdeps ims oms) sel).deps =
            (nodes.filter (fun nd => (sel.lookup nd.1).isSome)).map
              (fun nd => (nd.1, buildNodeDeps sel gdeps nd.1 (nodeInputs nd.2))) := by
        rw [subset_deps_def]
        exact filterMap_guard_eq_filter_map nodes (fun nd => (sel.lookup nd.1).isSome)
          (fun nd =>
            if (sel.lookup nd.1).isSome then
              some (nd.1, buildNodeDeps sel gdeps nd.1 (nodeInputs nd.2))
            else none)
          (fun nd => (nd.1, buildNodeDeps sel gdeps nd.1 (nodeInputs nd.2)))
          (fun a _ => rfl)
      obtain ⟨A, B, C, D, hsplit⟩ :
          ∃ A B C D,
            get_subselected_graph_definition (GraphDef.mk nodes gdeps ims oms) sel =
              GraphDef.mk A B C D := by
        cases hx : get_subselected_graph_definition (GraphDef.mk nodes gdeps ims oms) sel with
        | mk A B C D => exact ⟨A, B, C, D, rfl⟩
      rw [hsplit] at hGnodes hGdeps hdv
      simp only [GraphDef.nodes, GraphDef.deps] at hGnodes hGdeps
      have hAfm :
          nodes.filterMap (selectNode sel) = A := by
        have := subset_nodes_def nodes gdeps ims oms sel
        rw [hsplit] at this
        simp only [GraphDef.nodes] at this
        exact this.symm
      have hC : C = ims.filter (fun m => ((A.map Prod.fst).contains m.2.1)) := by
        have := subset_ims_def nodes gdeps ims oms sel
        rw [hsplit] at this
        simp only [GraphDef.input_mappings] at this
        rw [hAfm] at this
        exact this
      have hD : D = oms.filter (fun m => ((A.map Prod.fst).contains m.2.1)) := by
        have := subset_oms_def nodes gdeps ims oms sel
        rw [hsplit] at this
        simp only [GraphDef.output_mappings] at this
        rw [hAfm] at this
        exact this
      -- every node of the subselected graph is selected
      have hAsel : ∀ a ∈ A, (sel.lookup a.1).isSome = true := by
        intro a ha
        rw [hGnodes] at ha
        obtain ⟨nd, hnd, hae⟩ := List.mem_map.mp ha
        rw [← hae]
        exact (List.mem_filter.mp hnd).2
      -- rebuilding a rebuilt payload changes nothing (inner induction)
      have hrb : ∀ nd ∈ nodes.filter (fun nd => (sel.lookup nd.1).isSome),
          rebuildPayload (rebuildPayload nd.2 (selOf sel nd.1)) (selOf sel nd.1) =
            rebuildPayload nd.2 (selOf sel nd.1) := by
        intro nd hnd
        have hndm : nd ∈ nodes := (List.mem_filter.mp hnd).1
        cases hp : nd.2 with
        | inl ins =>
          simp only [rebuildPayload_inl]
        | inr sub =>
          cases hsn : selOf sel nd.1 with
          | leaf =>
            simp only [rebuildPayload_leaf]
          | branch children =>
            simp only [rebuildPayload_branch]
            congr 1
            have hszsub : sizeOf sub < n := by
              have m1 := List.sizeOf_lt_of_mem hndm
              have m3 : sizeOf sub < sizeOf nd := by
                cases hv : nd with
                | mk a b =>
                  rw [hv] at hp
                  simp only at hp
                  subst hp
                  simp only [Prod.mk.sizeOf_spec, Sum.inr.sizeOf_spec]
                  omega
              have m4 : sizeOf (GraphDef.mk nodes gdeps ims oms) =
                  1 + sizeOf nodes + sizeOf gdeps + sizeOf ims + sizeOf oms := by
                simp
              omega
            have hwfsub : sub.wellFormed = true := by
              have hw := wellFormed_payload hwf nd hndm
              rw [hp] at hw
              exact payloadWF_sub hw
            have hdvsub : (get_subselected_graph_definition sub children).depsValid = true := by
              have hmemA : (nd.1, Sum.inr (get_subselected_graph_definition sub children)) ∈ A := by
                rw [hGnodes]
                refine List.mem_map.mpr ⟨nd, hnd, ?_⟩
                show (nd.1, rebuildPayload nd.2 (selOf sel nd.1)) =
                  (nd.1, Sum.inr (get_subselected_graph_definition sub children))
                rw [hp, hsn, rebuildPayload_branch]
              have := depsValid_payload hdv _ hmemA
              exact payloadDV_sub _ this
            exact ih sub hszsub hwfsub children hdvsub
      -- filterMap over the subselected nodes keeps everything unchanged
      have hAfix : A.filterMap (selectNode sel) = A := by
        rw [filterMap_guard_eq_map A (fun a => (sel.lookup a.1).isSome) (selectNode sel)
          (fun a => (a.1, rebuildPayload a.2 (selOf sel a.1)))
          (fun a _ => selectNode_guard sel a) hAsel]
        rw [hGnodes, List.map_map]
        refine List.map_congr_left ?_
        intro nd hnd
        show ((nd.1, rebuildPayload nd.2 (selOf sel nd.1)).1,
            rebuildPayload (nd.1, rebuildPayload nd.2 (selOf sel nd.1)).2
              (selOf sel (nd.1, rebuildPayload nd.2 (selOf sel nd.1)).1)) =
          (nd.1, rebuildPayload nd.2 (selOf sel nd.1))
        simp only
        rw [hrb nd hnd]
      -- node-name bookkeeping
      have hkeysA : A.map Prod.fst = (nodes.map Prod.fst).filter
          (fun k => (sel.lookup k).isSome) := by
        rw [hGnodes, List.map_map]
        have : (Prod.fst ∘ fun nd : String × (List String ⊕ GraphDef) =>
            (nd.1, rebuildPayload nd.2 (selOf sel nd.1))) = Prod.fst := rfl
        rw [this]
        exact filter_fst_map_fst nodes (fun k => (sel.lookup k).isSome)
      have hkeysB : B.map Prod.fst = (nodes.map Prod.fst).filter
          (fun k => (sel.lookup k).isSome) := by
        rw [hGdeps, List.map_map]
        have : (Prod.fst ∘ fun nd : String × (List String ⊕ GraphDef) =>
            (nd.1, buildNodeDeps sel gdeps nd.1 (nodeInputs nd.2))) = Prod.fst := rfl
        rw [this]
        exact filter_fst_map_fst nodes (fun k => (sel.lookup k).isSome)
      have hnodupA : (A.map Prod.fst).Nodup := by
        rw [hkeysA]
        exact (wellFormed_names_nodup hwf).filter _
      have hnodupB : (B.map Prod.fst).Nodup := by
        rw [hkeysB]
        exact (wellFormed_names_nodup hwf).filter _
      rw [hsplit]
      refine GraphDef.ext_of _ _ ?_ ?_ ?_ ?_
      · -- nodes
        rw [subset_nodes_def]
        simp only [GraphDef.nodes]
        exact hAfix
      · -- deps
        rw [subset_deps_def]
        simp only [GraphDef.deps]
        rw [filterMap_guard_eq_map A (fun a => (sel.lookup a.1).isSome)
          (fun nd =>
            if (sel.lookup nd.1).isSome then
              some (nd.1, buildNodeDeps sel B nd.1 (nodeInputs nd.2))
            else none)
          (fun nd => (nd.1, buildNodeDeps sel B nd.1 (nodeInputs nd.2)))
          (fun a _ => rfl) hAsel]
        rw [hGnodes, List.map_map]
        conv_rhs => rw [hGdeps]
        refine List.map_congr_left ?_
        intro nd hnd
        have hndm : nd ∈ nodes := (List.mem_filter.mp hnd).1
        simp only [Function.comp]
        refine congrArg (fun E => (nd.1, E)) ?_
        -- rebuild the per-node dependency dictionary
        have hmemB : (nd.1, buildNodeDeps sel gdeps nd.1 (nodeInputs nd.2)) ∈ B := by
          rw [hGdeps]
          exact List.mem_map_of_mem
            (fun nd => (nd.1, buildNodeDeps sel gdeps nd.1 (nodeInputs nd.2))) hnd
        have hlookupB : B.lookup nd.1 =
            some (buildNodeDeps sel gdeps nd.1 (nodeInputs nd.2)) :=
          lookup_of_mem_nodup B _ hmemB hnodupB
        have hmemA : (nd.1, rebuildPayload nd.2 (selOf sel nd.1)) ∈ A := by
          rw [hGnodes]
          exact List.mem_map_of_mem
            (fun nd => (nd.1, rebuildPayload nd.2 (selOf sel nd.1))) hnd
        have hlookupA : A.lookup nd.1 = some (rebuildPayload nd.2 (selOf sel nd.1)) :=
          lookup_of_mem_nodup A _ hmemA hnodupA
        have hvalid : ∀ i ∈ (buildNodeDeps sel gdeps nd.1 (nodeInputs nd.2)).map Prod.fst,
            i ∈ nodeInputs (rebuildPayload nd.2 (selOf sel nd.1)) := by
          obtain ⟨p, hp, hall⟩ := depsValid_entry hdv _ hmemB
          rw [hlookupA] at hp
          injection hp with hp'
          intro i hi
          have hc := hall i hi
          rw [hp']
          exact mem_of_contains hc
        have horig_nodup : (nodeInputs nd.2).Nodup :=
          payloadWF_inputs_nodup (wellFormed_payload hwf nd hndm)
        have hnew_sub : List.Sublist (nodeInputs (rebuildPayload nd.2 (selOf sel nd.1)))
            (nodeInputs nd.2) := rebuild_inputs_sublist nd.2 (selOf sel nd.1)
        have hkeys_sub : List.Sublist
            ((buildNodeDeps sel gdeps nd.1 (nodeInputs nd.2)).map Prod.fst)
            (nodeInputs nd.2) := buildNodeDeps_keys_sublist sel gdeps nd.1 (nodeInputs nd.2)
        have hsubkeys : List.Sublist
            ((buildNodeDeps sel gdeps nd.1 (nodeInputs nd.2)).map Prod.fst)
            (nodeInputs (rebuildPayload nd.2 (selOf sel nd.1))) :=
          sublist_of_subset_of_nodup (nodeInputs nd.2) _ _ hkeys_sub hnew_sub horig_nodup
            hvalid
        have hnewnodup : (nodeInputs (rebuildPayload nd.2 (selOf sel nd.1))).Nodup :=
          horig_nodup.sublist hnew_sub
        have hfix : ∀ e ∈ buildNodeDeps sel gdeps nd.1 (nodeInputs nd.2),
            filterNodeDep sel e.2 = some e.2 :=
          fun e he => (buildNodeDeps_mem sel gdeps nd.1 (nodeInputs nd.2) e he).1
        have hcore := rebuild_deps_core sel
          ((buildNodeDeps sel gdeps nd.1 (nodeInputs nd.2)).map Prod.fst)
          (nodeInputs (rebuildPayload nd.2 (selOf sel nd.1))) hsubkeys hnewnodup
          (buildNodeDeps sel gdeps nd.1 (nodeInputs nd.2)) rfl hfix
        refine Eq.trans ?_ hcore
        refine List.filterMap_congr ?_
        intro i _
        show (lookupDep B nd.1 i).bind
            (fun d => (filterNodeDep sel d).map (fun d' => (i, d'))) =
          ((buildNodeDeps sel gdeps nd.1 (nodeInputs nd.2)).lookup i).bind
            (fun v => (filterNodeDep sel v).map (fun v' => (i, v')))
        unfold lookupDep
        rw [hlookupB, Option.some_bind]
      · -- input mappings
        rw [subset_ims_def]
        simp only [GraphDef.input_mappings]
        rw [hAfix]
        refine List.filter_eq_self.mpr ?_
        intro m hm
        rw [hC] at hm
        exact (List.mem_filter.mp hm).2
      · -- output mappings
        rw [subset_oms_def]
        simp only [GraphDef.output_mappings]
        rw [hAfix]
        refine List.filter_eq_self.mpr ?_
        intro m hm
        rw [hD] at hm
        exact (List.mem_filter.mp hm).2

/-- The upstream node names one recorded dependency references. -/
def depUpstreams : InputDep → List String
  | .direct up _ => [up]
  | .dynamic_collect up _ => [up]
  | .fan_in entries => entries.filterMap (fun e => e.map Prod.fst)

def depsUpstreamsIn (deps : List (String × List (String × InputDep)))
    (names : List String) : Bool :=
  deps.all (fun ndE =>
    ndE.2.all (fun e => (depUpstreams e.2).all (fun up => names.contains up)))

lemma filterNodeDep_upstreams_selected (sel : List (String × SelectionTreeNode))
    (d v : InputDep) (h : filterNodeDep sel d = some v) :
    ∀ up ∈ depUpstreams v, (sel.lookup up).isSome = true := by
  cases d with
  | direct up out =>
    rw [filterNodeDep] at h
    split at h
    · next hc =>
      injection h with h'
      rw [← h']
      intro u hu
      simp only [depUpstreams, List.mem_singleton] at hu
      rw [hu]
      exact hc
    · cases h
  | dynamic_collect up out =>
    rw [filterNodeDep] at h
    split at h
    · next hc =>
      injection h with h'
      rw [← h']
      intro u hu
      simp only [depUpstreams, List.mem_singleton] at hu
      rw [hu]
      exact hc
    · cases h
  | fan_in entries =>
    rw [filterNodeDep] at h
    injection h with h'
    rw [← h']
    intro u hu
    simp only [depUpstreams] at hu
    obtain ⟨e, he, heq⟩ := List.mem_filterMap.mp hu
    have hp := (List.mem_filter.mp he).2
    cases e with
    | none => cases heq
    | some pr =>
      obtain ⟨pu, po⟩ := pr
      simp only at hp
      rw [Option.map_some'] at heq
      injection heq with hequ
      rw [← hequ]
      exact hp

lemma filterNodeDep_upstreams_subset (sel : List (String × SelectionTreeNode))
    (d v : InputDep) (h : filterNodeDep sel d = some v) :
    ∀ up ∈ depUpstreams v, up ∈ depUpstreams d := by
  cases d with
  | direct up out =>
    rw [filterNodeDep] at h
    split at h
    · injection h with h'
      rw [← h']
      exact fun u hu => hu
    · cases h
  | dynamic_collect up out =>
    rw [filterNodeDep] at h
    split at h
    · injection h with h'
      rw [← h']
      exact fun u hu => hu
    · cases h
  | fan_in entries =>
    rw [filterNodeDep] at h
    injection h with h'
    rw [← h']
    intro u hu
    simp only [depUpstreams] at hu ⊢
    obtain ⟨e, he, heq⟩ := List.mem_filterMap.mp hu
    exact List.mem_filterMap.mpr ⟨e, (List.mem_filter.mp he).1, heq⟩

lemma subset_deps_upstreams_selected (g : GraphDef)
    (sel : List (String × SelectionTreeNode)) :
    ((get_subselected_graph_definition g sel).deps).all (fun ndE =>
      ndE.2.all (fun e =>
        (depUpstreams e.2).all (fun up => (sel.lookup up).isSome))) = true := by
  cases g with
  | mk nodes gdeps ims oms =>
    rw [subset_deps_def, List.all_eq_true]
    intro ndE hm
    obtain ⟨nd, hnd, hkeep⟩ := List.mem_filterMap.mp hm
    split at hkeep
    · injection hkeep with hk
      rw [← hk]
      simp only
      rw [List.all_eq_true]
      intro e he
      have hfix := (buildNodeDeps_mem sel gdeps nd.1 (nodeInputs nd.2) e he).1
      rw [List.all_eq_true]
      intro up hup
      exact filterNodeDep_upstreams_selected sel e.2 e.2 hfix up hup
    · cases hkeep

lemma subset_deps_upstreams_in_names (g : GraphDef)
    (sel : List (String × SelectionTreeNode))
    (hscope : depsUpstreamsIn g.deps g.node_names = true) :
    depsUpstreamsIn (get_subselected_graph_definition g sel).deps
      (get_subselected_graph_definition g sel).node_names = true := by
  cases g with
  | mk nodes gdeps ims oms =>
    rw [depsUpstreamsIn, List.all_eq_true]
    intro ndE hm
    rw [subset_deps_def] at hm
    obtain ⟨nd, hnd, hkeep⟩ := List.mem_filterMap.mp hm
    split at hkeep
    · injection hkeep with hk
      rw [← hk]
      simp only
      rw [List.all_eq_true]
      intro e he
      obtain ⟨hfix, d, hld, hfd⟩ := buildNodeDeps_mem sel gdeps nd.1 (nodeInputs nd.2) e he
      rw [List.all_eq_true]
      intro up hup
      have hupsel := filterNodeDep_upstreams_selected sel e.2 e.2 hfix up hup
      have hupd := filterNodeDep_upstreams_subset sel d e.2 hfd up hup
      unfold lookupDep at hld
      rcases hL : gdeps.lookup nd.1 with _ | L
      · rw [hL] at hld
        cases hld
      · rw [hL, Option.some_bind] at hld
        have hmem1 : (nd.1, L) ∈ gdeps := mem_of_lookup_eq_some gdeps nd.1 L hL
        have hmem2 : (e.1, d) ∈ L := mem_of_lookup_eq_some L e.1 d hld
        rw [depsUpstreamsIn] at hscope
        simp only [GraphDef.deps] at hscope
        rw [List.all_eq_true] at hscope
        have h1 := hscope (nd.1, L) hmem1
        rw [List.all_eq_true] at h1
        have h2 := h1 (e.1, d) hmem2
        rw [List.all_eq_true] at h2
        have h3 := h2 up hupd
        have hupn : up ∈ (GraphDef.mk nodes gdeps ims oms).node_names :=
          mem_of_contains h3
        rw [subset_node_names]
        have hin : up ∈ ((GraphDef.mk nodes gdeps ims oms).node_names).filter
            (fun n => (sel.lookup n).isSome) :=
          List.mem_filter.mpr ⟨hupn, hupsel⟩
        simpa using hin
    · cases hkeep

/-- C3: `get_subselected_graph_definition(G, S)` keeps exactly the selected
nodes (in order); every dependency it records references only selected
upstream nodes — dependencies whose upstream producer is unselected are
silently dropped, leaving the input unconnected — and, when the graph's
dependencies reference only its own nodes, the result's dependencies
reference only surviving nodes; and the operation is idempotent:
subselecting the (validly constructed) subselection with the same selection
returns it unchanged.  Well-formedness (unique node/input names) and the
subselection's construction-time dependency validation are the conditions
under which the source returns at all (spec sections 3 and 7). -/
theorem get_subselected_graph_spec (g : GraphDef)
    (sel : List (String × SelectionTreeNode)) :
    ((get_subselected_graph_definition g sel).node_names =
        g.node_names.filter (fun n => (sel.lookup n).isSome)) ∧
    (((get_subselected_graph_definition g sel).deps).all (fun ndE =>
        ndE.2.all (fun e =>
          (depUpstreams e.2).all (fun up => (sel.lookup up).isSome))) = true) ∧
    (depsUpstreamsIn g.deps g.node_names = true →
      depsUpstreamsIn (get_subselected_graph_definition g sel).deps
        (get_subselected_graph_definition g sel).node_names = true) ∧
    (g.wellFormed = true →
      (get_subselected_graph_definition g sel).depsValid = true →
      get_subselected_graph_definition (get_subselected_graph_definition g sel) sel =
        get_subselected_graph_definition g sel) :=
  ⟨subset_node_names g sel, subset_deps_upstreams_selected g sel,
    subset_deps_upstreams_in_names g sel,
    fun hwf hdv => subset_idempotent_aux (sizeOf g + 1) g (by omega) hwf sel hdv⟩

/-- A concrete nested graph: ops `a`, `b`, `c`, plus a graph node `sub`
wrapping an inner graph with ops `p`, `q`.  `b` consumes `a` and `c`; `sub`'s
graph input feeds inner `q`; `c` has a fan-in input. -/
def c3_inner : GraphDef :=
  GraphDef.mk
    [("p", Sum.inl []), ("q", Sum.inl ["j"])]
    [("p", []), ("q", [("j", InputDep.direct "p" "out")])]
    [("gi", "q", "j")]
    [("go", "q", "res")]

def c3_outer : GraphDef :=
  GraphDef.mk
    [("a", Sum.inl []), ("b", Sum.inl ["i1", "i2"]),
      ("sub", Sum.inr c3_inner), ("c", Sum.inl ["k"])]
    [("a", []),
      ("b", [("i1", InputDep.direct "a" "out"), ("i2", InputDep.direct "c" "out")]),
      ("sub", [("gi", InputDep.direct "a" "out")]),
      ("c", [("k", InputDep.fan_in [some ("a", "out"), none])])]
    []
    []

/-- Select `a`, `b` fully and `sub` partially (both inner nodes); drop `c`. -/
def c3_sel : List (String × SelectionTreeNode) :=
  [("a", SelectionTreeNode.leaf), ("b", SelectionTreeNode.leaf),
    ("sub", SelectionTreeNode.branch [("p", SelectionTreeNode.leaf),
      ("q", SelectionTreeNode.leaf)])]

/-- C3 witness: on the concrete graph, the subselection keeps exactly
`a`, `b`, `sub`, drops the dependency of `b` on the unselected `c`, keeps
references only to surviving nodes, and is idempotent. -/
theorem get_subselected_graph_spec_witness :
    ((get_subselected_graph_definition c3_outer c3_sel).node_names =
        c3_outer.node_names.filter (fun n => (c3_sel.lookup n).isSome)) ∧
    (((get_subselected_graph_definition c3_outer c3_sel).deps).all (fun ndE =>
        ndE.2.all (fun e =>
          (depUpstreams e.2).all (fun up => (c3_sel.lookup up).isSome))) = true) ∧
    depsUpstreamsIn (get_subselected_graph_definition c3_outer c3_sel).deps
      (get_subselected_graph_definition c3_outer c3_sel).node_names = true ∧
    get_subselected_graph_definition
        (get_subselected_graph_definition c3_outer c3_sel) c3_sel =
      get_subselected_graph_definition c3_outer c3_sel := by
  have hwf : c3_outer.wellFormed = true := by
    simp [c3_outer, c3_inner, GraphDef.wellFormed, payloadWF, nodeInputs,
      GraphDef.input_mappings]
  have hscope : depsUpstreamsIn c3_outer.deps c3_outer.node_names = true := by
    simp [c3_outer, c3_inner, depsUpstreamsIn, GraphDef.deps, GraphDef.node_names,
      GraphDef.nodes, depUpstreams]
  have hdv : (get_subselected_graph_definition c3_outer c3_sel).depsValid = true := by
    simp [c3_outer, c3_inner, c3_sel, get_subselected_graph_definition, selectNode,
      rebuildPayload, buildNodeDeps, lookupDep, filterNodeDep, nodeInputs,
      GraphDef.depsValid, payloadDV, GraphDef.input_mappings, List.lookup]
  have h := get_subselected_graph_spec c3_outer c3_sel
  exact ⟨h.1, h.2.1, h.2.2.1 hscope, h.2.2.2 hwf hdv⟩

end DagsterSpec
